import Mathlib

/-!
Verification of the Flip-to-6 multiplayer card-game server.

The development shallowly embeds the server's session state machine: card
predicates, the two hand-scoring functions, the hybrid shuffle (Fisher-Yates,
forced streaks, zone-based action insertion), deck construction and recycling,
turn rotation, round scoring, and the socket event handlers (draw, stay, pass,
action-target resolution, second-chance response).

Modelling conventions:
- Card values are the TEXT values stored in the database ("0".."12", "2x",
  "4+", "5+", "6-", "Second Chance", "Freeze", "Swap", "Take 3").
- `Math.floor(Math.random() * n)` is modelled by consuming the head of an
  ambient list of naturals and reducing it modulo `n`; every value in
  `[0, n)` is reachable, and universal statements quantify over the list.
- Database rows ordered by a `position` column are modelled as Lean lists in
  ascending position order; timestamp positions are modelled by a
  monotonically increasing counter (`nextPos`).
- A thrown exception that a socket handler's try/catch swallows leaves all
  mutations executed before the throw in place; where that matters the
  functions return an `Except` whose error component carries the state
  mutated so far.
-/

namespace Flip6

/-! ### Card predicates and JS numeric parsing -/

/-- The thirteen numeric card values, as stored in the database. -/
def numberStrings : List String :=
  ["0", "1", "2", "3", "4", "5", "6", "7", "8", "9", "10", "11", "12"]

/-- Embeds the test of the regex for a numeral 0-12 used by the server:
it accepts exactly the strings "0".."9", "10", "11", "12". -/
def isNumberStr (v : String) : Bool := numberStrings.contains v

/-- Returns true if the card is NOT a number (0-12); source: `isAction`. -/
def isAction (v : String) : Bool := !(isNumberStr v)

/-- Embeds JavaScript `parseInt(v, 10)`: an optional sign followed by the
longest prefix of decimal digits; `none` models NaN (no digits found).
Leading whitespace never occurs in card values. -/
def jsParseInt (v : String) : Option Int :=
  let go : List Char → Int → Option Int := fun cs sign =>
    let ds := cs.takeWhile Char.isDigit
    if ds.isEmpty then none
    else some (sign * (ds.foldl (fun a c => a * 10 + ((c.toNat : Int) - 48)) 0))
  match v.data with
  | '-' :: rest => go rest (-1)
  | '+' :: rest => go rest 1
  | cs => go cs 1

/-! ### Scoring engines -/

/-- The numeric part of `computeHandScore` (server.js): every card passing
the numeral regex contributes `parseInt(c, 10)`. -/
def sumNumeric (cards : List String) : Int :=
  cards.foldl (fun t c => if isNumberStr c then t + ((jsParseInt c).getD 0) else t) 0

/-- Embeds `computeHandScore(cards)` from server.js: sum numeric cards, then
double if a "2x" is present, add 4 for "4+", add 5 for "5+", and finally
subtract 6 for "6-" clamped at zero; each modifier is keyed on membership,
hence applied at most once. -/
def computeHandScore (cards : List String) : Int :=
  let t0 := sumNumeric cards
  let t1 := if cards.contains "2x" then t0 * 2 else t0
  let t2 := if cards.contains "4+" then t1 + 4 else t1
  let t3 := if cards.contains "5+" then t2 + 5 else t2
  if cards.contains "6-" then max 0 (t3 - 6) else t3

/-- Embeds the loop body of `computeScore` (part_001) over the ordered list of
hand values: each row is first passed through `parseInt`; only when that
yields NaN are the modifier branches consulted, and the final result is
`score * mult`. -/
def computeScoreVals (vals : List String) : Int :=
  let sm := vals.foldl (fun (sm : Int × Int) v =>
    match jsParseInt v with
    | some num => (sm.1 + num, sm.2)
    | none =>
        (sm.1 + (if v == "4+" then 4 else 0) + (if v == "5+" then 5 else 0)
              - (if v == "6-" then 6 else 0),
         if v == "2x" then sm.2 * 2 else sm.2)) ((0 : Int), (1 : Int))
  sm.1 * sm.2

/-- Modelled from the spec's words, for comparison only: sum numeric card
values, then apply each modifier at most once — doubled if any "2x" is
present, +4 if any "4+", +5 if any "5+", −6 if any "6-" (no clamping
mentioned by the claim). -/
def claimHandScore (cards : List String) : Int :=
  let t0 := sumNumeric cards
  let t1 := if cards.contains "2x" then t0 * 2 else t0
  let t2 := if cards.contains "4+" then t1 + 4 else t1
  let t3 := if cards.contains "5+" then t2 + 5 else t2
  if cards.contains "6-" then t3 - 6 else t3

/-! Basic sanity examples for the scoring engines. -/

example : computeHandScore ["3", "4", "2x"] = 14 := by decide
example : computeScoreVals ["3", "4", "2x"] = 9 := by decide
example : computeScoreVals ["6-"] = 6 := by decide
example : computeHandScore ["6-"] = 0 := by decide
example : claimHandScore ["6-"] = -6 := by decide

/-! ### The hybrid shuffle

The source shuffles arrays of `{ value }` objects in place; the embedding
works directly on the lists of card-value strings and threads the stream of
random numbers explicitly. -/

/-- One `Math.floor(Math.random() * n)` draw: consume the head of the random
stream and reduce it modulo `n`; every outcome in `[0, n)` is reachable. -/
def randBelow (rs : List Nat) (n : Nat) : Nat × List Nat :=
  (rs.headD 0 % n, rs.tail)

/-- The destructuring swap `[deck[i], deck[j]] = [deck[j], deck[i]]`; both
right-hand sides are read from the original list. -/
def swapIdx (l : List String) (i j : Nat) : List String :=
  (l.set i (l.getD j "")).set j (l.getD i "")

/-- The loop of `fisherYates`, indexed by the descending counter `i`. -/
def fisherYatesAux : List String → Nat → List Nat → List String × List Nat
  | deck, 0, rs => (deck, rs)
  | deck, i + 1, rs =>
      fisherYatesAux (swapIdx deck (i + 1) (rs.headD 0 % (i + 2))) i rs.tail

/-- Embeds `fisherYates(deck)`: for `i` from `deck.length - 1` down to `1`,
swap `deck[i]` with `deck[j]` for a random `j ≤ i`. -/
def fisherYates (deck : List String) (rs : List Nat) : List String × List Nat :=
  fisherYatesAux deck (deck.length - 1) rs

/-- Whether `deck[i..i+len-1]` is already a run of equal values (the inner
`streak` check of `forceStreak`); all indices accessed are in bounds at the
call sites. -/
def isRunAt (deck : List String) (i len : Nat) : Bool :=
  (List.range (len - 1)).all (fun j => deck.getD (i + j + 1) "" == deck.getD i "")

/-- Embeds `deck.findIndex((c, idx2) => idx2 >= i + length && c.value ===
targetValue)`: the first index at or beyond `fromIdx` holding `target`. -/
def findIdxFrom (deck : List String) (fromIdx : Nat) (target : String) : Option Nat :=
  (List.range deck.length).find? (fun k => decide (fromIdx ≤ k) && deck.getD k "" == target)

/-- The scanning loop of `forceStreak`: offsets are visited from 0 while
`offset < bound`, each window starting at `(start + offset) % bound`; the
first non-run window whose starting value occurs again later gets that
occurrence swapped into its last slot, and the function returns immediately
after one swap. The `fuel` argument counts the remaining iterations
(`bound` at entry, so the loop runs for offsets `0 .. bound - 1` exactly as
in the source) and makes the recursion structural. -/
def forceStreakGo (deck : List String) (len start bound : Nat) :
    Nat → Nat → List String
  | _offset, 0 => deck
  | offset, fuel + 1 =>
      if bound ≤ offset then deck
      else
        let i := (start + offset) % bound
        if isRunAt deck i len then forceStreakGo deck len start bound (offset + 1) fuel
        else
          match findIdxFrom deck (i + len) (deck.getD i "") with
          | some idx => swapIdx deck (i + len - 1) idx
          | none => forceStreakGo deck len start bound (offset + 1) fuel

/-- Embeds `forceStreak(deck, length)`. When the deck is shorter than the
requested streak the JS loop bound `deck.length - length + 1` is not
positive: the loop body never runs, but the random `start` draw is still
consumed. -/
def forceStreak (deck : List String) (len : Nat) (rs : List Nat) :
    List String × List Nat :=
  if deck.length < len then (deck, rs.tail)
  else
    let bound := deck.length - len + 1
    let (start, rs1) := randBelow rs bound
    (forceStreakGo deck len start bound 0 bound, rs1)

/-- Embeds `makeZones(deckSize)`. The JS products `deckSize * 0.10` (etc.)
are binary floating point; they are modelled by the exact rational floors
`deckSize * 10 / 100` (etc.), which agree on all sizes relevant here. The
last zone's upper end `deckSize - 1` is truncated Nat subtraction; for
`deckSize = 0` JS yields `-1` and the zone is skipped by the
`minPos >= maxPos` guard either way. -/
def makeZones (deckSize : Nat) : List (Nat × Nat) :=
  [(deckSize * 10 / 100, deckSize * 30 / 100),
   (deckSize * 30 / 100, deckSize * 65 / 100),
   (deckSize * 65 / 100, deckSize * 80 / 100),
   (deckSize * 80 / 100, deckSize - 1)]

/-- Repeated `result.splice(insertPos, 0, card)` at a fixed position: each
card is inserted at `pos`, pushing the previously inserted ones to the
right. -/
def insertCards (result : List String) (pos : Nat) (cards : List String) : List String :=
  cards.foldl (fun acc c => acc.insertIdx pos c) result

/-- The zone loop of `distributeActionsAdaptive`: stop (`break`) once all
action cards are used, skip (`continue`) degenerate zones, otherwise insert
a random batch of 1-3 remaining action cards at one random position inside
the zone. -/
def distGo (actions : List String) :
    List String → Nat → List (Nat × Nat) → List Nat → List String × List Nat
  | result, _, [], rs => (result, rs)
  | result, actionIndex, (minPos, maxPos) :: rest, rs =>
      if actions.length ≤ actionIndex then (result, rs)
      else if maxPos ≤ minPos then distGo actions result actionIndex rest rs
      else
        let (r1, rs1) := randBelow rs 3
        let count := min (r1 + 1) (actions.length - actionIndex)
        let (r2, rs2) := randBelow rs1 (maxPos - minPos + 1)
        let insertPos := r2 + minPos
        distGo actions (insertCards result insertPos ((actions.drop actionIndex).take count))
          (actionIndex + count) rest rs2

/-- Embeds `distributeActionsAdaptive(result, actionCards)`; the zones are
computed once from the length of `result` before any insertion. -/
def distributeActionsAdaptive (result actions : List String) (rs : List Nat) :
    List String × List Nat :=
  distGo actions result 0 (makeZones result.length) rs

/-- Embeds `hybridShuffle(deck)` with the default streak lengths [2, 3]:
split numeric vs action, shuffle the numerics, force streaks of lengths 2
and 3, shuffle the actions, cap them at 14, and insert them into the
numeric backbone zone by zone. -/
def hybridShuffle (deck : List String) (rs : List Nat) : List String × List Nat :=
  let numberCards := deck.filter (fun c => !(isAction c))
  let actionCards := deck.filter (fun c => isAction c)
  let (n1, rs1) := fisherYates numberCards rs
  let (n2, rs2) := forceStreak n1 2 rs1
  let (n3, rs3) := forceStreak n2 3 rs2
  let (a1, rs4) := fisherYates actionCards rs3
  let actionsToUse := a1.take 14
  distributeActionsAdaptive n3 actionsToUse rs4

/-! ### Session state

One room's slice of the database. Lists ordered by a `position` column are
kept in ascending position order; `room_players` rows are kept in ascending
`order_index` (seat) order, matching every `ORDER BY order_index` query. -/

/-- One `player_hands` row: owner (logical `player_id`), position, value. -/
structure HandRow where
  pid : Nat
  pos : Nat
  val : String
deriving DecidableEq, Repr

/-- One `room_players` row (the fields the game logic reads). -/
structure Player where
  pid : Nat
  orderIndex : Nat
  active : Bool
  stayed : Bool
  roundBust : Bool
  totalScore : Int
deriving DecidableEq, Repr

/-- The three `pending_action_*` columns; the server always sets and clears
them together. -/
structure Pending where
  ptype : String
  actorId : Nat
  value : String
deriving DecidableEq, Repr

/-- The `rooms` row of one session. -/
structure Room where
  locked : Bool
  roundNumber : Nat
  roundOver : Bool
  paused : Bool
  currentPlayerId : Option Nat
  pending : Option Pending
  roundStarterId : Option Nat
deriving DecidableEq, Repr

/-- One `round_scores` row: player, round number, score. -/
structure ScoreRow where
  pid : Nat
  round : Nat
  score : Int
deriving DecidableEq, Repr

/-- A session's full state. `nextPos` models the monotonically increasing
timestamp used as the `position` of new hand and discard rows. -/
structure GameState where
  room : Room
  players : List Player
  drawPile : List String
  discardPile : List String
  hands : List HandRow
  roundScores : List ScoreRow
  nextPos : Nat
deriving DecidableEq, Repr

/-! ### Hand / discard helpers (section 4 of the server) -/

/-- Embeds `addToHand`: insert a row with a fresh (latest) position. -/
def addToHand (s : GameState) (pid : Nat) (v : String) : GameState :=
  { s with hands := s.hands ++ [⟨pid, s.nextPos, v⟩], nextPos := s.nextPos + 1 }

/-- A `player_hands` row matching a given owner and value. -/
def rowMatches (pid : Nat) (v : String) (h : HandRow) : Bool :=
  h.pid == pid && h.val == v

/-- Embeds `removeFromHand`: delete the matching row with the greatest
position (`ORDER BY position DESC LIMIT 1`), i.e. the last matching row of
the position-ordered list; a no-op when no row matches. -/
def removeFromHand (s : GameState) (pid : Nat) (v : String) : GameState :=
  { s with hands := ((s.hands.reverse.eraseP (rowMatches pid v)).reverse) }

/-- Embeds `addToDiscard`: append with a fresh (latest) position. -/
def addToDiscard (s : GameState) (v : String) : GameState :=
  { s with discardPile := s.discardPile ++ [v] }

/-- The ordered list of one player's hand values. -/
def handOf (s : GameState) (pid : Nat) : List String :=
  (s.hands.filter (fun h => h.pid == pid)).map (fun h => h.val)

/-- The count query used by the duplicate check: how many rows of this value
the player holds. -/
def countInHand (s : GameState) (pid : Nat) (v : String) : Nat :=
  s.hands.countP (rowMatches pid v)

/-- Embeds `playerHasSecondChance`. -/
def playerHasSecondChance (s : GameState) (pid : Nat) : Bool :=
  s.hands.any (rowMatches pid "Second Chance")

/-- The `UPDATE room_players SET stayed = TRUE WHERE player_id = ...` write. -/
def setStayed (s : GameState) (pid : Nat) : GameState :=
  { s with players := s.players.map (fun p =>
      if p.pid == pid then { p with stayed := true } else p) }

/-- The `UPDATE room_players SET stayed = TRUE, round_bust = TRUE` write. -/
def bustPlayer (s : GameState) (pid : Nat) : GameState :=
  { s with players := s.players.map (fun p =>
      if p.pid == pid then { p with stayed := true, roundBust := true } else p) }

/-- The `UPDATE rooms SET pending_action_* = NULL` write. -/
def clearPending (s : GameState) : GameState :=
  { s with room := { s.room with pending := none } }

/-- The `UPDATE rooms SET pending_action_* = ...` write. -/
def setPending (s : GameState) (p : Pending) : GameState :=
  { s with room := { s.room with pending := some p } }

/-- The card total the conservation claim tracks:
`|draw| + |discard| + Σ |hand|`. -/
def conservedTotal (s : GameState) : Nat :=
  s.drawPile.length + s.discardPile.length + s.hands.length

/-! ### Deck construction and drawing (section 3 of the server) -/

/-- Expands the `card_types` rows (already in the `ORDER BY value` order)
into the flat deck built by `ensureDeck`. -/
def expandTemplate (template : List (String × Nat)) : List String :=
  template.flatMap (fun t => List.replicate t.2 t.1)

/-- The card catalog seeded by `/api/init-deck`, listed in the TEXT
`ORDER BY value` order used by `ensureDeck`'s query. -/
def defaultCardTypes : List (String × Nat) :=
  [("0", 1), ("1", 1), ("10", 10), ("11", 11), ("12", 12), ("2", 2),
   ("2x", 1), ("3", 3), ("4", 4), ("4+", 2), ("5", 5), ("5+", 2),
   ("6", 6), ("6-", 2), ("7", 7), ("8", 8), ("9", 9),
   ("Freeze", 1), ("Second Chance", 3), ("Swap", 1), ("Take 3", 2)]

/-- Embeds `ensureDeck(roomId)`: a no-op while the draw pile is non-empty;
otherwise expand the template, shuffle it, install it as the draw pile and
clear the discard pile and all hands. -/
def ensureDeck (template : List (String × Nat)) (s : GameState) (rs : List Nat) :
    GameState × List Nat :=
  if s.drawPile.length > 0 then (s, rs)
  else
    let (deck, rs1) := hybridShuffle (expandTemplate template) rs
    ({ s with drawPile := deck, discardPile := [], hands := [] }, rs1)

/-- The outcome of `popTopCard`: a card, `null` (both piles empty), or the
`TypeError` thrown by `res.rows[0].id` when the reshuffled pile is empty. -/
inductive PopResult where
  | card (v : String)
  | noCard
  | crash
deriving DecidableEq, Repr

/-- Embeds `popTopCard(roomId)` (part_001): pop the lowest-position row; if
the draw pile is empty, reshuffle the entire discard pile through
`hybridShuffle` and install it as the new draw pile first; if the discard
pile is also empty return `null`. When the reshuffle output is empty the
second SELECT returns no rows and `res.rows[0].id` throws after the discard
pile has already been deleted. -/
def popTopCard (s : GameState) (rs : List Nat) : PopResult × GameState × List Nat :=
  match s.drawPile with
  | v :: rest => (.card v, { s with drawPile := rest }, rs)
  | [] =>
      if s.discardPile.isEmpty then (.noCard, s, rs)
      else
        let (deck, rs1) := hybridShuffle s.discardPile rs
        match deck with
        | v :: rest => (.card v, { s with discardPile := [], drawPile := rest }, rs1)
        | [] => (.crash, { s with discardPile := [], drawPile := [] }, rs1)

/-! ### Turn order and round flow (sections 6-7 of the server) -/

/-- A player the turn rotation may select: active, not stayed, not busted. -/
def eligible (p : Player) : Bool :=
  p.active && !p.stayed && !p.roundBust

/-- The candidate list of `advanceTurn`: active players in seat order with
the stayed and busted ones filtered out. -/
def candidates (s : GameState) : List Player :=
  (s.players.filter (fun p => p.active)).filter (fun p => !p.stayed && !p.roundBust)

/-- Embeds `advanceTurn(roomId, options)` (part_001). With `forceCurrent`
and a non-null pointer it does nothing. Otherwise: no candidates → round
over, pointer cleared; null pointer → first candidate; current player not
among the candidates → first candidate; otherwise the candidate after the
current player, cyclically. -/
def advanceTurn (s : GameState) (forceCurrent : Bool := false) : GameState :=
  if forceCurrent && s.room.currentPlayerId.isSome then s
  else
    let players := (candidates s).map (fun p => p.pid)
    if players.isEmpty then
      { s with room := { s.room with roundOver := true, currentPlayerId := none } }
    else
      match s.room.currentPlayerId with
      | none => { s with room := { s.room with currentPlayerId := players.head? } }
      | some cur =>
          match players.findIdx? (fun x => x == cur) with
          | none => { s with room := { s.room with currentPlayerId := players.head? } }
          | some currentIdx =>
              { s with room := { s.room with
                  currentPlayerId := players.get? ((currentIdx + 1) % players.length) } }

/-- Embeds `computeScore(roomId, playerId)` (part_001): run the parseInt
loop over the player's position-ordered hand values. -/
def computeScore (s : GameState) (pid : Nat) : Int :=
  computeScoreVals (handOf s pid)

/-- Embeds `getNextStartingPlayer(roomId)`: rotate one seat past the stored
round starter among the active players. -/
def getNextStartingPlayer (s : GameState) : Option Nat :=
  let players := (s.players.filter (fun p => p.active)).map (fun p => p.pid)
  if players.isEmpty then none
  else
    match s.room.roundStarterId with
    | none => players.head?
    | some last =>
        match players.findIdx? (fun x => x == last) with
        | none => players.head?
        | some index => players.get? ((index + 1) % players.length)

/-- The per-player round score of `endRound`: 0 for a busted player,
otherwise the hand score plus the +15 bonus for six or more cards. -/
def roundScoreFor (s : GameState) (p : Player) : Int :=
  if p.roundBust then 0
  else
    computeScore s p.pid +
      (if 6 ≤ (s.hands.filter (fun h => h.pid == p.pid)).length then 15 else 0)

/-- The `UPDATE room_players SET total_score = total_score + ...` write. -/
def addTotalScore (s : GameState) (pid : Nat) (sc : Int) : GameState :=
  { s with players := s.players.map (fun p =>
      if p.pid == pid then { p with totalScore := p.totalScore + sc } else p) }

/-- One iteration of `endRound`'s scoring loop for player `p`: insert the
`round_scores` row, add to the running total, and copy the hand's values to
the discard pile (the hand rows themselves are deleted after the loop). -/
def endRoundStep (round : Nat) (s : GameState) (p : Player) : GameState :=
  let sc := roundScoreFor s p
  let s1 := { s with roundScores := s.roundScores ++ [⟨p.pid, round, sc⟩] }
  let s2 := addTotalScore s1 p.pid sc
  (handOf s2 p.pid).foldl (fun acc v => addToDiscard acc v) s2

/-- Embeds `endRound(roomId)` (part_001): score every active player in seat
order, discard and delete all hands, reset the stayed and bust flags,
advance the round number and clear the pending action, rebuild the deck if
it is empty, then install the rotated round starter as the current player
(`advanceTurn` with `forceCurrent` is then a no-op unless the starter is
null). -/
def endRound (template : List (String × Nat)) (s : GameState) (rs : List Nat) :
    GameState × List Nat :=
  let round := s.room.roundNumber
  let actives := s.players.filter (fun p => p.active)
  let s1 := actives.foldl (endRoundStep round) s
  let s2 := { s1 with hands := [] }
  let resetFlags := fun (p : Player) => { p with stayed := false, roundBust := false }
  let s3 := { s2 with players := s2.players.map resetFlags }
  let s4 := { s3 with room := { s3.room with
      roundNumber := s3.room.roundNumber + 1, roundOver := false, pending := none } }
  let (s5, rs1) := ensureDeck template s4 rs
  let nextStarter := getNextStartingPlayer s5
  let s6 := { s5 with room := { s5.room with
      currentPlayerId := nextStarter, roundStarterId := nextStarter } }
  (advanceTurn s6 true, rs1)

/-! ### Draw-card logic (section 9 of the server) -/

/-- The `scoring` array of `drawCardForPlayer`. -/
def scoringCards : List String := ["2x", "4+", "5+", "6-"]

/-- The `instant` array of `drawCardForPlayer` (both spellings accepted). -/
def instantCards : List String := ["Freeze", "Swap", "Take 3", "Take3"]

/-- The `actionType` selection for a drawn instant card: "Take 3" and
"Take3" both map to the pending type "Take3". -/
def actionTypeOf (value : String) : String :=
  if value == "Freeze" then "Freeze"
  else if value == "Swap" then "Swap"
  else "Take3"

/-- Embeds `drawCardForPlayer(room, playerId)` (part_001). The freshly
reloaded pending action blocks the draw entirely. Otherwise: ensure a deck,
lock the room, pop a card, and dispatch on it — numeric (with duplicate /
Second Chance / bust handling), scoring card, Second Chance card, instant
action card (installs the pending action), or discard for unknown values.
The error component models the exception thrown when `popTopCard` crashes:
it carries the state mutated so far and aborts the caller. -/
def drawCardForPlayer (template : List (String × Nat)) (s : GameState) (pid : Nat)
    (rs : List Nat) : Except (GameState × List Nat) (GameState × List Nat) :=
  if s.room.pending.isSome then .ok (s, rs)
  else
    let (s1, rs1) := ensureDeck template s rs
    let s2 := { s1 with room := { s1.room with locked := true } }
    match popTopCard s2 rs1 with
    | (.noCard, s3, rs2) => .ok (s3, rs2)
    | (.crash, s3, rs2) => .error (s3, rs2)
    | (.card v, s3, rs2) =>
        if isNumberStr v then
          let s4 := addToHand s3 pid v
          if 1 < countInHand s4 pid v then
            if playerHasSecondChance s4 pid then
              .ok (setPending s4 ⟨"SecondChancePrompt", pid, v⟩, rs2)
            else
              .ok (bustPlayer s4 pid, rs2)
          else .ok (s4, rs2)
        else if scoringCards.contains v then .ok (addToHand s3 pid v, rs2)
        else if v == "Second Chance" then .ok (addToHand s3 pid v, rs2)
        else if instantCards.contains v then
          .ok (setPending (addToHand s3 pid v) ⟨actionTypeOf v, pid, v⟩, rs2)
        else .ok (addToDiscard s3 v, rs2)

/-! ### Socket event handlers (section 11 of the server) -/

/-- The `isMyTurn` guard shared by the draw, stay and pass handlers. -/
def isMyTurn (s : GameState) (pid : Nat) : Bool :=
  s.room.currentPlayerId == some pid && !s.room.roundOver && !s.room.paused
    && s.room.pending.isNone

/-- Embeds the `drawCard` socket handler: guarded by `isMyTurn`; the
socket-level try/catch swallows a thrown error, keeping the mutations made
before it. -/
def drawCardHandler (template : List (String × Nat)) (s : GameState) (pid : Nat)
    (rs : List Nat) : GameState × List Nat :=
  if isMyTurn s pid then
    match drawCardForPlayer template s pid rs with
    | .ok r => r
    | .error r => r
  else (s, rs)

/-- Embeds the `stay` socket handler: guarded by `isMyTurn`; clears the
(necessarily absent) pending action, marks the player stayed, advances the
turn. -/
def stayHandler (s : GameState) (pid : Nat) : GameState :=
  if isMyTurn s pid then advanceTurn (setStayed (clearPending s) pid) else s

/-- Embeds the `pass` socket handler: guarded by `isMyTurn`; clears the
pending action and advances the turn without marking `stayed`. -/
def passHandler (s : GameState) (pid : Nat) : GameState :=
  if isMyTurn s pid then advanceTurn (clearPending s) else s

/-- Embeds the `endRound` socket handler: only runs once `roundOver` is
set. -/
def endRoundHandler (template : List (String × Nat)) (s : GameState) (rs : List Nat) :
    GameState × List Nat :=
  if s.room.roundOver then endRound template s rs else (s, rs)

/-- The single `UPDATE player_hands ... CASE` statement of the Swap branch:
every row of player `a` now belongs to `b` and vice versa; positions are
untouched. -/
def swapHands (s : GameState) (a b : Nat) : GameState :=
  { s with hands := s.hands.map (fun h =>
      if h.pid == a then { h with pid := b }
      else if h.pid == b then { h with pid := a } else h) }

/-- The Take3 loop of `actionTarget`: three calls of `drawCardForPlayer`
for the target, stopping if one of them throws. -/
def take3Loop (template : List (String × Nat)) (tgt : Nat) :
    Nat → GameState → List Nat → Except (GameState × List Nat) (GameState × List Nat)
  | 0, s, rs => .ok (s, rs)
  | n + 1, s, rs =>
      match drawCardForPlayer template s tgt rs with
      | .error r => .error r
      | .ok (s1, rs1) => take3Loop template tgt n s1 rs1

/-- Embeds the `actionTarget` socket handler (part_001): rejected unless a
pending action exists and the sender is its actor; then the branches keyed
on the client-supplied `action` string run (Freeze target, Swap hands,
Take3 forced draws); finally one card of the pending value is removed from
the actor's hand, that value is added to the discard pile, and the pending
action is cleared. A thrown error inside the Take3 loop aborts the handler,
keeping only the mutations made before it. -/
def actionTarget (template : List (String × Nat)) (s : GameState) (pid : Nat)
    (action : String) (targetId : Nat) (rs : List Nat) : GameState × List Nat :=
  match s.room.pending with
  | none => (s, rs)
  | some pend =>
      if pend.actorId != pid then (s, rs)
      else
        let s1 := if action == "Freeze" then setStayed s targetId else s
        let s2 := if action == "Swap" then swapHands s1 pid targetId else s1
        let afterDraws :=
          if action == "Take3" then take3Loop template targetId 3 s2 rs else .ok (s2, rs)
        match afterDraws with
        | .error r => r
        | .ok (s3, rs3) =>
            (clearPending (addToDiscard (removeFromHand s3 pid pend.value) pend.value), rs3)

/-- Embeds the `secondChanceResponse` socket handler (part_001). There is
no pending-type, actor or turn check: the handler acts for whatever
`playerId` the client sent. Declining busts that player; accepting removes
one card of the pending value and one Second Chance card from their hand
into the discard pile; either way the pending fields are cleared. If no
pending action exists, `dupValue` is SQL NULL: the first hand removal
matches no row, one "Second Chance" row is still removed, and the INSERT of
a NULL discard value then violates the NOT NULL constraint — the thrown
error skips the remaining statements, so the pending fields stay as they
were. -/
def secondChanceResponse (s : GameState) (pid : Nat) (use : Bool) : GameState :=
  let dupValue := s.room.pending.map (fun p => p.value)
  if !use then clearPending (bustPlayer s pid)
  else
    match dupValue with
    | some v =>
        clearPending (addToDiscard (addToDiscard
          (removeFromHand (removeFromHand s pid v) pid "Second Chance") v) "Second Chance")
    | none => removeFromHand s pid "Second Chance"

/-- Modelled from the spec's words, for comparison only: scan the active
players in fixed seat order starting immediately after the current player,
wrapping, and select the first who is not stayed and not busted. -/
def specNextEligible (players : List Player) (cur : Nat) : Option Nat :=
  match (players.filter (fun p => p.active)).findIdx? (fun p => p.pid == cur) with
  | none => none
  | some i =>
      (((players.filter (fun p => p.active)).drop (i + 1)
          ++ (players.filter (fun p => p.active)).take (i + 1)).find?
        (fun p => !p.stayed && !p.roundBust)).map (fun p => p.pid)

/-! ### Scoring lemmas (claim C4) -/

theorem jsParseInt_numeric_nonneg (v : String) (h : isNumberStr v = true) :
    0 ≤ (jsParseInt v).getD 0 := by
  have hv : v ∈ numberStrings := by
    simpa [isNumberStr, List.contains_iff_exists_mem_beq] using h
  fin_cases hv <;> decide

theorem sumNumeric_aux_nonneg (cards : List String) :
    ∀ t : Int, 0 ≤ t →
      0 ≤ cards.foldl
        (fun t c => if isNumberStr c then t + ((jsParseInt c).getD 0) else t) t := by
  induction cards with
  | nil => intro t ht; simpa using ht
  | cons c cards ih =>
      intro t ht
      simp only [List.foldl_cons]
      apply ih
      by_cases hc : isNumberStr c = true
      · simp only [hc, if_true]
        exact add_nonneg ht (jsParseInt_numeric_nonneg c hc)
      · simp only [hc, if_false]
        exact ht

theorem sumNumeric_nonneg (cards : List String) : 0 ≤ sumNumeric cards :=
  sumNumeric_aux_nonneg cards 0 le_rfl

theorem computeHandScore_eq_clamped_claim (cards : List String) :
    computeHandScore cards = max 0 (claimHandScore cards) := by
  unfold computeHandScore claimHandScore
  have h0 : 0 ≤ sumNumeric cards := sumNumeric_nonneg cards
  by_cases h2 : "2x" ∈ cards <;> by_cases h4 : "4+" ∈ cards <;>
    by_cases h5 : "5+" ∈ cards <;> by_cases h6 : "6-" ∈ cards <;>
      simp [h2, h4, h5, h6] <;> omega

theorem computeScoreVals_aux (vals : List String) :
    ∀ (a m : Int),
      vals.foldl
        (fun (sm : Int × Int) v =>
          match jsParseInt v with
          | some num => (sm.1 + num, sm.2)
          | none =>
              (sm.1 + (if v == "4+" then 4 else 0) + (if v == "5+" then 5 else 0)
                    - (if v == "6-" then 6 else 0),
               if v == "2x" then sm.2 * 2 else sm.2)) (a, m)
        = (a + (vals.map (fun v => (jsParseInt v).getD 0)).sum, m) := by
  induction vals with
  | nil => intro a m; simp
  | cons v vals ih =>
      intro a m
      simp only [List.foldl_cons, List.map_cons, List.sum_cons]
      cases hv : jsParseInt v with
      | some num =>
          rw [ih]
          simp [hv, add_assoc]
      | none =>
          have h2x : (v == "2x") = false := by
            cases hb : v == "2x"
            · rfl
            · exact absurd hv (by rw [show v = "2x" from eq_of_beq hb]; decide)
          have h4 : (v == "4+") = false := by
            cases hb : v == "4+"
            · rfl
            · exact absurd hv (by rw [show v = "4+" from eq_of_beq hb]; decide)
          have h5 : (v == "5+") = false := by
            cases hb : v == "5+"
            · rfl
            · exact absurd hv (by rw [show v = "5+" from eq_of_beq hb]; decide)
          have h6 : (v == "6-") = false := by
            cases hb : v == "6-"
            · rfl
            · exact absurd hv (by rw [show v = "6-" from eq_of_beq hb]; decide)
          rw [ih]
          simp [hv, h2x, h4, h5, h6]

theorem computeScoreVals_eq_parseInt_sum (vals : List String) :
    computeScoreVals vals = (vals.map (fun v => (jsParseInt v).getD 0)).sum := by
  unfold computeScoreVals
  rw [computeScoreVals_aux vals 0 1]
  simp

theorem contains_cons_of_mem {v m : String} (cards : List String)
    (h : v ∈ cards) : (v :: cards).contains m = cards.contains m := by
  by_cases hm : m = v
  · subst hm
    simp [h]
  · simp [List.contains_cons, hm]

/-- Claim C4, counterexample. The claim's formula (each modifier applied at
most once, −6 for a "6-") yields −6 on the hand ["6-"], but
`computeHandScore` (server.js) clamps at zero and returns 0, while
`computeScore` (part_001) parses "6-" as the number 6 and returns +6; the
claim's own scenario hand [3, 4, "2x"] scores 9 under part_001's
`computeScore`, not 14. -/
theorem c4_scoring_counterexample :
    claimHandScore ["6-"] = -6 ∧ computeHandScore ["6-"] = 0 ∧
      computeScoreVals ["6-"] = 6 ∧ computeScoreVals ["3", "4", "2x"] = 9 := by
  decide

/-- Claim C4, amended. `computeHandScore` (server.js) equals the claim's
formula clamped at zero, and a duplicate modifier card never changes its
value (each modifier applied at most once); the hand [3, 4, "2x"] scores 14
under it. `computeScore` (part_001) instead feeds every card through
`parseInt`, so each modifier card contributes its leading digits additively
per copy ("2x" adds 2, "4+" adds 4, "5+" adds 5, "6-" adds 6) and the
doubling branch is unreachable: it computes plainly the sum of the parsed
values, and scores the hand [3, 4, "2x"] as 9. -/
theorem c4_scoring_amended :
    (∀ cards : List String, computeHandScore cards = max 0 (claimHandScore cards)) ∧
    (∀ (v : String) (cards : List String), v ∈ scoringCards → v ∈ cards →
        computeHandScore (v :: cards) = computeHandScore cards) ∧
    (∀ vals : List String,
        computeScoreVals vals = (vals.map (fun v => (jsParseInt v).getD 0)).sum) ∧
    computeHandScore ["3", "4", "2x"] = 14 ∧ computeScoreVals ["3", "4", "2x"] = 9 := by
  refine ⟨computeHandScore_eq_clamped_claim, ?_, computeScoreVals_eq_parseInt_sum,
    by decide, by decide⟩
  intro v cards hv hmem
  have hnotnum : isNumberStr v = false := by
    fin_cases hv <;> decide
  have hsum : sumNumeric (v :: cards) = sumNumeric cards := by
    unfold sumNumeric
    simp [hnotnum]
  unfold computeHandScore
  rw [hsum]
  simp only [contains_cons_of_mem cards hmem]

/-- Witness for `c4_scoring_amended` at concrete inputs. -/
theorem c4_scoring_amended_witness :
    computeHandScore ["4+", "3", "4+"] = computeHandScore ["3", "4+"] :=
  c4_scoring_amended.2.1 "4+" ["3", "4+"] (by decide) (by decide)

/-! ### Counting through one-element erasure -/

theorem countP_eraseP_succ {α : Type} (p : α → Bool) :
    ∀ l : List α, 0 < l.countP p → (l.eraseP p).countP p + 1 = l.countP p := by
  intro l
  induction l with
  | nil => simp
  | cons a l ih =>
      intro hl
      by_cases ha : p a
      · rw [List.eraseP_cons_of_pos ha]
        simp [List.countP_cons, ha]
      · rw [List.eraseP_cons_of_neg (by simpa using ha)]
        have hl' : 0 < l.countP p := by
          simpa [List.countP_cons, ha] using hl
        have := ih hl'
        simp [List.countP_cons, ha]
        omega

theorem countP_eraseP_disjoint {α : Type} (p q : α → Bool)
    (hd : ∀ x, p x = true → q x = false) :
    ∀ l : List α, (l.eraseP p).countP q = l.countP q := by
  intro l
  induction l with
  | nil => simp
  | cons a l ih =>
      by_cases ha : p a
      · rw [List.eraseP_cons_of_pos ha]
        simp [List.countP_cons, hd a ha]
      · rw [List.eraseP_cons_of_neg (by simpa using ha)]
        simp [List.countP_cons, ih]

theorem eraseP_length_succ {α : Type} (p : α → Bool) (l : List α)
    (h : 0 < l.countP p) : (l.eraseP p).length + 1 = l.length := by
  obtain ⟨a, ha, hpa⟩ := List.countP_pos_iff.mp h
  rw [List.length_eraseP_of_mem ha hpa]
  have : 0 < l.length := List.length_pos.mpr (by rintro rfl; simp at ha)
  omega

theorem eraseP_of_countP_zero {α : Type} (p : α → Bool) (l : List α)
    (h : l.countP p = 0) : l.eraseP p = l := by
  apply List.eraseP_of_forall_not
  intro a ha hpa
  have : 0 < l.countP p := List.countP_pos_iff.mpr ⟨a, ha, hpa⟩
  omega

/-! ### Hand-row matching -/

theorem rowMatches_disjoint {pid pid' : Nat} {v v' : String}
    (h : pid' ≠ pid ∨ v' ≠ v) (x : HandRow) (hx : rowMatches pid v x = true) :
    rowMatches pid' v' x = false := by
  simp only [rowMatches, Bool.and_eq_true, beq_iff_eq] at hx
  rcases hx with ⟨h1, h2⟩
  rcases h with h | h
  · simp only [rowMatches, Bool.and_eq_false_iff, beq_eq_false_iff_ne, ne_eq, h1]
    exact Or.inl (fun hh => h hh.symm)
  · simp only [rowMatches, Bool.and_eq_false_iff, beq_eq_false_iff_ne, ne_eq, h2]
    exact Or.inr (fun hh => h hh.symm)

/-! ### Field-level facts about the state operations -/

theorem removeFromHand_room (s : GameState) (pid : Nat) (v : String) :
    (removeFromHand s pid v).room = s.room := rfl

theorem removeFromHand_players (s : GameState) (pid : Nat) (v : String) :
    (removeFromHand s pid v).players = s.players := rfl

theorem removeFromHand_discard (s : GameState) (pid : Nat) (v : String) :
    (removeFromHand s pid v).discardPile = s.discardPile := rfl

theorem removeFromHand_draw (s : GameState) (pid : Nat) (v : String) :
    (removeFromHand s pid v).drawPile = s.drawPile := rfl

theorem addToDiscard_hands (s : GameState) (v : String) :
    (addToDiscard s v).hands = s.hands := rfl

theorem clearPending_hands (s : GameState) : (clearPending s).hands = s.hands := rfl

theorem removeFromHand_count_same (s : GameState) (pid : Nat) (v : String)
    (h : 0 < countInHand s pid v) :
    countInHand (removeFromHand s pid v) pid v + 1 = countInHand s pid v := by
  unfold countInHand removeFromHand at *
  simp only [List.countP_reverse]
  have h' : 0 < s.hands.reverse.countP (rowMatches pid v) := by
    simpa [List.countP_reverse] using h
  simpa [List.countP_reverse] using
    countP_eraseP_succ (rowMatches pid v) s.hands.reverse h'

theorem removeFromHand_count_other (s : GameState) (pid pid' : Nat) (v v' : String)
    (h : pid' ≠ pid ∨ v' ≠ v) :
    countInHand (removeFromHand s pid v) pid' v' = countInHand s pid' v' := by
  unfold countInHand removeFromHand
  simp only [List.countP_reverse]
  simpa [List.countP_reverse] using
    countP_eraseP_disjoint _ _ (rowMatches_disjoint h) s.hands.reverse

theorem removeFromHand_length (s : GameState) (pid : Nat) (v : String)
    (h : 0 < countInHand s pid v) :
    (removeFromHand s pid v).hands.length + 1 = s.hands.length := by
  unfold countInHand removeFromHand at *
  simp only [List.length_reverse]
  have h' : 0 < s.hands.reverse.countP (rowMatches pid v) := by
    simpa [List.countP_reverse] using h
  simpa using eraseP_length_succ (rowMatches pid v) s.hands.reverse h'

theorem removeFromHand_nomatch (s : GameState) (pid : Nat) (v : String)
    (h : countInHand s pid v = 0) : removeFromHand s pid v = s := by
  unfold countInHand at h
  unfold removeFromHand
  rw [eraseP_of_countP_zero _ _ (by simpa using h)]
  simp

/-! ### Concrete example sessions -/

/-- A connected active player with the given seat and flags, for the
concrete example states below. -/
def mkPlayer (pid seat : Nat) (stayed bust : Bool) : Player :=
  ⟨pid, seat, true, stayed, bust, 0⟩

/-- A session with an open Freeze pending action belonging to player 1. -/
def exC7State : GameState :=
  ⟨⟨true, 1, false, false, some 1, some ⟨"Freeze", 1, "Freeze"⟩, none⟩,
   [mkPlayer 1 0 false false, mkPlayer 2 1 false false],
   ["9"], [], [⟨1, 1, "Freeze"⟩], [], 100⟩

/-- A session with an open Take3 pending action belonging to player 1 and a
well-stocked draw pile. -/
def exC10State : GameState :=
  ⟨⟨true, 1, false, false, some 1, some ⟨"Take3", 1, "Take 3"⟩, none⟩,
   [mkPlayer 1 0 false false, mkPlayer 2 1 false false],
   ["5", "6", "7"], [], [⟨1, 1, "Take 3"⟩], [], 100⟩

/-! ### Claim C7: pending-action exclusivity -/

/-- Claim C7, counterexample. While a Freeze pending action belonging to
player 1 is open, a `secondChanceResponse` request from player 2 — who is
not the actor — is not a no-op: it marks player 2 stayed and busted and it
clears (resolves away) the pending action. -/
theorem c7_pending_exclusivity_counterexample :
    secondChanceResponse exC7State 2 false ≠ exC7State ∧
    (∃ p ∈ (secondChanceResponse exC7State 2 false).players,
        p.pid = 2 ∧ p.stayed = true ∧ p.roundBust = true) ∧
    (secondChanceResponse exC7State 2 false).room.pending = none := by
  decide

/-- Claim C7, amended. At most one pending action exists by construction
(one nullable record per session). While one is open every draw, stay or
pass command from any player leaves the session unchanged, and an
`actionTarget` resolution request from any player other than the actor is a
no-op; but `secondChanceResponse` performs no actor or pending-type check,
so any player's response mutates the session and clears the pending action
(see the counterexample). -/
theorem c7_pending_exclusivity_amended :
    ∀ (s : GameState) (p : Pending), s.room.pending = some p →
      (∀ (template : List (String × Nat)) (pid : Nat) (rs : List Nat),
          drawCardHandler template s pid rs = (s, rs)) ∧
      (∀ pid : Nat, stayHandler s pid = s) ∧
      (∀ pid : Nat, passHandler s pid = s) ∧
      (∀ (template : List (String × Nat)) (pid : Nat) (action : String)
          (tgt : Nat) (rs : List Nat), p.actorId ≠ pid →
          actionTarget template s pid action tgt rs = (s, rs)) := by
  intro s p hp
  have hturn : ∀ pid, isMyTurn s pid = false := by
    intro pid
    unfold isMyTurn
    simp [hp]
  refine ⟨?_, ?_, ?_, ?_⟩
  · intro template pid rs
    unfold drawCardHandler
    simp [hturn]
  · intro pid
    unfold stayHandler
    simp [hturn]
  · intro pid
    unfold passHandler
    simp [hturn]
  · intro template pid action tgt rs hne
    unfold actionTarget
    rw [hp]
    have hbne : (p.actorId != pid) = true := by simpa using hne
    simp [hbne]

/-- Witness for `c7_pending_exclusivity_amended` at a concrete session. -/
theorem c7_pending_exclusivity_amended_witness :
    stayHandler exC7State 2 = exC7State :=
  ((c7_pending_exclusivity_amended exC7State ⟨"Freeze", 1, "Freeze"⟩ rfl).2.1) 2

/-! ### Claim C10: Take3 interruption -/

/-- Claim C10, counterexample. Resolving a Take3 with a rich draw pile and
no possible interruption still draws nothing: the draw pile is untouched,
the target's hand stays empty, and only the "Take 3" card moves from the
actor's hand to the discard pile — the claim's premise that the target
performs three forced draws is false. -/
theorem c10_take3_counterexample :
    (actionTarget defaultCardTypes exC10State 1 "Take3" 2 []).1.drawPile
        = ["5", "6", "7"] ∧
    handOf (actionTarget defaultCardTypes exC10State 1 "Take3" 2 []).1 2 = [] ∧
    (actionTarget defaultCardTypes exC10State 1 "Take3" 2 []).1.hands = [] ∧
    (actionTarget defaultCardTypes exC10State 1 "Take3" 2 []).1.discardPile
        = ["Take 3"] ∧
    (actionTarget defaultCardTypes exC10State 1 "Take3" 2 []).1.room.pending = none := by
  decide

/-- Claim C10, amended. Every forced draw of a Take3 resolution runs while
the Take3 pending action itself is still open, and `drawCardForPlayer`
refuses to draw whenever any pending action exists — so all three forced
draws are no-ops that draw no card and change no state (no mid-sequence
pending action can ever arise), and the resolution only removes one card of
the pending value from the actor's hand, discards that value, and clears
the pending action. -/
theorem c10_take3_amended :
    (∀ (template : List (String × Nat)) (s : GameState) (pid : Nat) (rs : List Nat)
        (p : Pending), s.room.pending = some p →
        drawCardForPlayer template s pid rs = .ok (s, rs)) ∧
    (∀ (template : List (String × Nat)) (tgt n : Nat) (s : GameState) (rs : List Nat)
        (p : Pending), s.room.pending = some p →
        take3Loop template tgt n s rs = .ok (s, rs)) ∧
    (∀ (template : List (String × Nat)) (s : GameState) (ty val : String)
        (a tgt : Nat) (rs : List Nat), s.room.pending = some ⟨ty, a, val⟩ →
        actionTarget template s a "Take3" tgt rs
          = (clearPending (addToDiscard (removeFromHand s a val) val), rs)) := by
  have hdraw : ∀ (template : List (String × Nat)) (s : GameState) (pid : Nat)
      (rs : List Nat) (p : Pending), s.room.pending = some p →
      drawCardForPlayer template s pid rs = .ok (s, rs) := by
    intro template s pid rs p hp
    unfold drawCardForPlayer
    rw [hp]
    simp
  have hloop : ∀ (template : List (String × Nat)) (tgt n : Nat) (s : GameState)
      (rs : List Nat) (p : Pending), s.room.pending = some p →
      take3Loop template tgt n s rs = .ok (s, rs) := by
    intro template tgt n
    induction n with
    | zero => intro s rs p _; rfl
    | succ n ih =>
        intro s rs p hp
        unfold take3Loop
        rw [hdraw template s tgt rs p hp]
        exact ih s rs p hp
  refine ⟨hdraw, hloop, ?_⟩
  intro template s ty val a tgt rs hpend
  unfold actionTarget
  rw [hpend]
  simp only [bne_self_eq_false, Bool.false_eq_true, if_false,
    show (("Take3" : String) == "Freeze") = false by decide,
    show (("Take3" : String) == "Swap") = false by decide,
    show (("Take3" : String) == "Take3") = true by decide, if_true]
  rw [hloop template tgt 3 s rs ⟨ty, a, val⟩ hpend]

/-- Witness for `c10_take3_amended` at a concrete session. -/
theorem c10_take3_amended_witness :
    drawCardForPlayer defaultCardTypes exC10State 2 [] = .ok (exC10State, []) :=
  c10_take3_amended.1 defaultCardTypes exC10State 2 [] ⟨"Take3", 1, "Take 3"⟩ rfl

/-! ### Claim C6: Second Chance resolution -/

theorem countInHand_clearPending (s : GameState) (pid : Nat) (v : String) :
    countInHand (clearPending s) pid v = countInHand s pid v := rfl

theorem countInHand_addToDiscard (s : GameState) (w : String) (pid : Nat) (v : String) :
    countInHand (addToDiscard s w) pid v = countInHand s pid v := rfl

/-- A session where player 1 just drew a duplicate "5" while holding a
Second Chance card: the SecondChancePrompt pending action is open, and
player 2 is still eligible. -/
def exC6State : GameState :=
  ⟨⟨true, 1, false, false, some 1, some ⟨"SecondChancePrompt", 1, "5"⟩, none⟩,
   [mkPlayer 1 0 false false, mkPlayer 2 1 false false],
   ["9"], [], [⟨1, 1, "5"⟩, ⟨1, 2, "Second Chance"⟩, ⟨1, 3, "5"⟩], [], 100⟩

/-- Claim C6, counterexample. When the actor declines the Second Chance
they are marked stayed and busted and the pending action is cleared, but
the turn does not advance: the current-player pointer still names the
busted actor even though player 2 is eligible. -/
theorem c6_second_chance_counterexample :
    (secondChanceResponse exC6State 1 false).room.currentPlayerId = some 1 ∧
    (∃ p ∈ (secondChanceResponse exC6State 1 false).players,
        p.pid = 2 ∧ eligible p = true) ∧
    (∃ p ∈ (secondChanceResponse exC6State 1 false).players,
        p.pid = 1 ∧ p.stayed = true ∧ p.roundBust = true) := by
  decide

/-- Claim C6, amended. Use: exactly one card of the duplicate value and one
Second Chance card move from the actor's hand to the discard pile, no flag
changes, the pending action is cleared and the turn pointer is untouched.
Decline: the actor is marked stayed and busted and the pending action is
cleared, but — other than the claim states — the turn does not advance: the
pointer is untouched there as well. -/
theorem c6_second_chance_amended (s : GameState) (a : Nat) (v : String)
    (hpend : s.room.pending = some ⟨"SecondChancePrompt", a, v⟩)
    (hvne : v ≠ "Second Chance")
    (hdup : 0 < countInHand s a v)
    (hsc : 0 < countInHand s a "Second Chance") :
    (countInHand (secondChanceResponse s a true) a v + 1 = countInHand s a v) ∧
    (countInHand (secondChanceResponse s a true) a "Second Chance" + 1
        = countInHand s a "Second Chance") ∧
    (∀ (pid' : Nat) (v' : String), pid' ≠ a ∨ (v' ≠ v ∧ v' ≠ "Second Chance") →
        countInHand (secondChanceResponse s a true) pid' v' = countInHand s pid' v') ∧
    ((secondChanceResponse s a true).hands.length + 2 = s.hands.length) ∧
    ((secondChanceResponse s a true).discardPile
        = s.discardPile ++ [v, "Second Chance"]) ∧
    ((secondChanceResponse s a true).players = s.players) ∧
    ((secondChanceResponse s a true).room.pending = none) ∧
    ((secondChanceResponse s a true).room.currentPlayerId
        = s.room.currentPlayerId) ∧
    ((secondChanceResponse s a false).hands = s.hands) ∧
    ((secondChanceResponse s a false).discardPile = s.discardPile) ∧
    (∀ p ∈ (secondChanceResponse s a false).players, p.pid = a →
        p.stayed = true ∧ p.roundBust = true) ∧
    ((secondChanceResponse s a false).room.pending = none) ∧
    ((secondChanceResponse s a false).room.currentPlayerId
        = s.room.currentPlayerId) := by
  have huse : secondChanceResponse s a true
      = clearPending (addToDiscard (addToDiscard
          (removeFromHand (removeFromHand s a v) a "Second Chance") v)
          "Second Chance") := by
    unfold secondChanceResponse
    rw [hpend]
    rfl
  have hdecl : secondChanceResponse s a false = clearPending (bustPlayer s a) := by
    unfold secondChanceResponse
    rfl
  have hsc1 : countInHand (removeFromHand s a v) a "Second Chance"
      = countInHand s a "Second Chance" :=
    removeFromHand_count_other s a a v "Second Chance" (Or.inr (Ne.symm hvne))
  refine ⟨?_, ?_, ?_, ?_, ?_, ?_, ?_, ?_, ?_, ?_, ?_, ?_, ?_⟩
  · rw [huse, countInHand_clearPending, countInHand_addToDiscard,
      countInHand_addToDiscard,
      removeFromHand_count_other (removeFromHand s a v) a a "Second Chance" v
        (Or.inr hvne)]
    exact removeFromHand_count_same s a v hdup
  · rw [huse, countInHand_clearPending, countInHand_addToDiscard,
      countInHand_addToDiscard,
      removeFromHand_count_same (removeFromHand s a v) a "Second Chance"
        (by rw [hsc1]; exact hsc), hsc1]
  · intro pid' v' h
    have h1 : pid' ≠ a ∨ v' ≠ v := by tauto
    have h2 : pid' ≠ a ∨ v' ≠ "Second Chance" := by tauto
    rw [huse, countInHand_clearPending, countInHand_addToDiscard,
      countInHand_addToDiscard,
      removeFromHand_count_other (removeFromHand s a v) a pid' "Second Chance" v' h2,
      removeFromHand_count_other s a pid' v v' h1]
  · rw [huse]
    have e1 : (clearPending (addToDiscard (addToDiscard
        (removeFromHand (removeFromHand s a v) a "Second Chance") v)
        "Second Chance")).hands
        = (removeFromHand (removeFromHand s a v) a "Second Chance").hands := rfl
    rw [e1]
    have l2 := removeFromHand_length (removeFromHand s a v) a "Second Chance"
      (by rw [hsc1]; exact hsc)
    have l1 := removeFromHand_length s a v hdup
    omega
  · rw [huse]
    have e1 : (clearPending (addToDiscard (addToDiscard
        (removeFromHand (removeFromHand s a v) a "Second Chance") v)
        "Second Chance")).discardPile
        = s.discardPile ++ [v] ++ ["Second Chance"] := rfl
    rw [e1]
    simp
  · rw [huse]; rfl
  · rw [huse]; rfl
  · rw [huse]; rfl
  · rw [hdecl]; rfl
  · rw [hdecl]; rfl
  · intro p hp hpid
    rw [hdecl] at hp
    have hp' : p ∈ (bustPlayer s a).players := hp
    simp only [bustPlayer, List.mem_map] at hp'
    obtain ⟨q, _, hq⟩ := hp'
    by_cases hqa : q.pid == a
    · rw [if_pos hqa] at hq
      rw [← hq]
      exact ⟨rfl, rfl⟩
    · rw [if_neg hqa] at hq
      subst hq
      exact absurd (by simpa using hpid) (by simpa using hqa)
  · rw [hdecl]; rfl
  · rw [hdecl]; rfl

/-- Witness for `c6_second_chance_amended` at a concrete session. -/
theorem c6_second_chance_amended_witness :
    (secondChanceResponse exC6State 1 true).discardPile = [] ++ ["5", "Second Chance"] :=
  (c6_second_chance_amended exC6State 1 "5" rfl (by decide) (by decide) (by decide)).2.2.2.2.1

/-! ### Claim C8: Swap resolution -/

theorem swapHands_self (s : GameState) (a : Nat) : swapHands s a a = s := by
  unfold swapHands
  have hf : s.hands.map (fun h =>
      if h.pid == a then { h with pid := a }
      else if h.pid == a then { h with pid := a } else h) = s.hands := by
    rw [List.map_congr_left (g := id) ?_, List.map_id]
    intro h _
    by_cases hh : h.pid == a
    · have : h.pid = a := eq_of_beq hh
      simp [hh, ← this]
    · simp [hh]
  rw [hf]

theorem swapHands_count_a (s : GameState) (a b : Nat) (hab : a ≠ b) (v : String) :
    countInHand (swapHands s a b) a v = countInHand s b v := by
  unfold countInHand swapHands
  rw [List.countP_map]
  apply List.countP_congr
  intro x _
  have hba : ¬(b = a) := Ne.symm hab
  by_cases hxa : x.pid = a
  · simp [rowMatches, hxa, hab, hba]
  · by_cases hxb : x.pid = b
    · simp [rowMatches, hxa, hxb, hba]
    · simp [rowMatches, hxa, hxb]

theorem swapHands_count_b (s : GameState) (a b : Nat) (hab : a ≠ b) (v : String) :
    countInHand (swapHands s a b) b v = countInHand s a v := by
  unfold countInHand swapHands
  rw [List.countP_map]
  apply List.countP_congr
  intro x _
  by_cases hxa : x.pid = a
  · simp [rowMatches, hxa]
  · by_cases hxb : x.pid = b
    · have hba : ¬(b = a) := Ne.symm hab
      simp [rowMatches, hxa, hxb, hba, hab]
    · simp [rowMatches, hxa, hxb]

theorem swapHands_count_other (s : GameState) (a b c : Nat) (hca : c ≠ a)
    (hcb : c ≠ b) (v : String) :
    countInHand (swapHands s a b) c v = countInHand s c v := by
  unfold countInHand swapHands
  rw [List.countP_map]
  apply List.countP_congr
  intro x _
  have hac : ¬(a = c) := Ne.symm hca
  have hbc : ¬(b = c) := Ne.symm hcb
  by_cases hxa : x.pid = a
  · simp [rowMatches, hxa, hac, hbc]
  · by_cases hxb : x.pid = b
    · by_cases hba : b = a <;> simp [rowMatches, hxa, hxb, hac, hbc, hba]
    · simp [rowMatches, hxa, hxb]

theorem swapHands_hands_length (s : GameState) (a b : Nat) :
    (swapHands s a b).hands.length = s.hands.length := by
  unfold swapHands
  simp

/-- A session with an open Swap pending action belonging to player 1, who
holds the Swap card and a "5"; player 2 holds a "7". -/
def exC8State : GameState :=
  ⟨⟨true, 1, false, false, some 1, some ⟨"Swap", 1, "Swap"⟩, none⟩,
   [mkPlayer 1 0 false false, mkPlayer 2 1 false false],
   ["9"], [], [⟨1, 1, "Swap"⟩, ⟨1, 2, "5"⟩, ⟨2, 3, "7"⟩], [], 100⟩

/-- Claim C8, counterexample. Resolving the Swap exchanges the hands first,
so the Swap card moves to the target before the removal step runs: after
resolution the target holds the Swap card, nothing was removed while a Swap
value was still appended to the discard pile (the session's card total grew
by one), and the turn did not advance even though player 2 is eligible. -/
theorem c8_swap_counterexample :
    countInHand (actionTarget [] exC8State 1 "Swap" 2 []).1 2 "Swap" = 1 ∧
    conservedTotal (actionTarget [] exC8State 1 "Swap" 2 []).1
        = conservedTotal exC8State + 1 ∧
    (actionTarget [] exC8State 1 "Swap" 2 []).1.room.currentPlayerId = some 1 ∧
    (∃ p ∈ (actionTarget [] exC8State 1 "Swap" 2 []).1.players,
        p.pid = 2 ∧ eligible p = true) := by
  decide

/-- Claim C8, amended. Resolving a Swap pending action exchanges the entire
hands of actor and target atomically (all values, modifiers included), and
a self-swap leaves the hand unchanged; one card of the pending value is
then removed from the actor's POST-swap hand if present — after a swap with
a distinct target whose hand held no Swap card, nothing is removed and the
Swap card stays with the target — while the pending value is appended to
the discard pile unconditionally; the pending action is cleared and the
turn pointer is untouched (no advance). -/
theorem c8_swap_amended (template : List (String × Nat)) (s : GameState)
    (ty val : String) (a tgt : Nat) (rs : List Nat)
    (hpend : s.room.pending = some ⟨ty, a, val⟩) :
    (∀ w : String, a ≠ tgt →
        countInHand (swapHands s a tgt) a w = countInHand s tgt w ∧
        countInHand (swapHands s a tgt) tgt w = countInHand s a w ∧
        ∀ c, c ≠ a → c ≠ tgt →
          countInHand (swapHands s a tgt) c w = countInHand s c w) ∧
    (swapHands s a a = s) ∧
    ((actionTarget template s a "Swap" tgt rs).1.room.pending = none) ∧
    ((actionTarget template s a "Swap" tgt rs).1.room.currentPlayerId
        = s.room.currentPlayerId) ∧
    ((actionTarget template s a "Swap" tgt rs).1.discardPile
        = s.discardPile ++ [val]) ∧
    (a ≠ tgt → countInHand s tgt val = 0 →
        countInHand (actionTarget template s a "Swap" tgt rs).1 tgt val
            = countInHand s a val ∧
        conservedTotal (actionTarget template s a "Swap" tgt rs).1
            = conservedTotal s + 1) ∧
    (a = tgt → 0 < countInHand s a val →
        countInHand (actionTarget template s a "Swap" tgt rs).1 a val + 1
            = countInHand s a val ∧
        conservedTotal (actionTarget template s a "Swap" tgt rs).1
            = conservedTotal s) := by
  have hrun1 : (actionTarget template s a "Swap" tgt rs).1
      = clearPending (addToDiscard
          (removeFromHand (swapHands s a tgt) a val) val) := by
    unfold actionTarget
    rw [hpend]
    simp only [bne_self_eq_false, Bool.false_eq_true, if_false,
      show (("Swap" : String) == "Freeze") = false by decide,
      show (("Swap" : String) == "Swap") = true by decide,
      show (("Swap" : String) == "Take3") = false by decide, if_true]
  refine ⟨?_, swapHands_self s a, ?_, ?_, ?_, ?_, ?_⟩
  · intro w hab
    exact ⟨swapHands_count_a s a tgt hab w, swapHands_count_b s a tgt hab w,
      fun c hca hcb => swapHands_count_other s a tgt c hca hcb w⟩
  · rw [hrun1]; rfl
  · rw [hrun1]; rfl
  · rw [hrun1]
    have e : (clearPending (addToDiscard
        (removeFromHand (swapHands s a tgt) a val) val)).discardPile
        = (swapHands s a tgt).discardPile ++ [val] := rfl
    rw [e]
    rfl
  · intro hab h0
    have hswcount : countInHand (swapHands s a tgt) a val = 0 := by
      rw [swapHands_count_a s a tgt hab val]; exact h0
    have hnorem : removeFromHand (swapHands s a tgt) a val = swapHands s a tgt :=
      removeFromHand_nomatch _ a val hswcount
    constructor
    · rw [hrun1, countInHand_clearPending, countInHand_addToDiscard, hnorem]
      exact swapHands_count_b s a tgt hab val
    · rw [hrun1]
      unfold conservedTotal
      have e1 : (clearPending (addToDiscard
          (removeFromHand (swapHands s a tgt) a val) val)).drawPile
          = s.drawPile := rfl
      have e2 : (clearPending (addToDiscard
          (removeFromHand (swapHands s a tgt) a val) val)).discardPile
          = (removeFromHand (swapHands s a tgt) a val).discardPile ++ [val] := rfl
      have e3 : (clearPending (addToDiscard
          (removeFromHand (swapHands s a tgt) a val) val)).hands
          = (removeFromHand (swapHands s a tgt) a val).hands := rfl
      rw [e1, e2, e3, hnorem]
      have e4 : (swapHands s a tgt).discardPile = s.discardPile := rfl
      rw [e4, swapHands_hands_length, List.length_append]
      simp
      omega
  · intro haeq h0
    subst haeq
    constructor
    · rw [hrun1, countInHand_clearPending, countInHand_addToDiscard, swapHands_self]
      exact removeFromHand_count_same s a val h0
    · rw [hrun1]
      unfold conservedTotal
      have e1 : (clearPending (addToDiscard
          (removeFromHand (swapHands s a a) a val) val)).drawPile
          = s.drawPile := rfl
      have e2 : (clearPending (addToDiscard
          (removeFromHand (swapHands s a a) a val) val)).discardPile
          = (removeFromHand (swapHands s a a) a val).discardPile ++ [val] := rfl
      have e3 : (clearPending (addToDiscard
          (removeFromHand (swapHands s a a) a val) val)).hands
          = (removeFromHand (swapHands s a a) a val).hands := rfl
      rw [e1, e2, e3, swapHands_self]
      have e4 : (removeFromHand s a val).discardPile = s.discardPile := rfl
      rw [e4, List.length_append]
      have := removeFromHand_length s a val h0
      simp
      omega

/-- Witness for `c8_swap_amended` at a concrete session. -/
theorem c8_swap_amended_witness :
    countInHand (actionTarget [] exC8State 1 "Swap" 2 []).1 2 "Swap"
      = countInHand exC8State 1 "Swap" :=
  ((c8_swap_amended [] exC8State "Swap" "Swap" 1 2 [] rfl).2.2.2.2.2.1
    (by decide) (by decide)).1

/-! ### Claim C2: turn rotation -/

theorem find?_eq_head_filter {α : Type} (p : α → Bool) :
    ∀ l : List α, l.find? p = (l.filter p).head? := by
  intro l
  induction l with
  | nil => rfl
  | cons a l ih =>
      by_cases ha : p a
      · rw [List.find?_cons_of_pos l ha, List.filter_cons_of_pos ha]
        rfl
      · rw [List.find?_cons_of_neg l ha, List.filter_cons_of_neg ha, ih]

theorem mem_take_getElem {α : Type} (l : List α) (i : Nat) (x : α)
    (hx : x ∈ l.take i) : ∃ (j : Nat) (hj : j < l.length), j < i ∧ l[j] = x := by
  obtain ⟨j, hj, hget⟩ := List.getElem_of_mem hx
  have h2 := hj
  rw [List.length_take] at h2
  have hji : j < i := lt_of_lt_of_le h2 (min_le_left _ _)
  have hjl : j < l.length := lt_of_lt_of_le h2 (min_le_right _ _)
  refine ⟨j, hjl, hji, ?_⟩
  rw [← hget]
  exact (List.getElem_take l).symm

/-- A three-player session whose current (stayed) player sits in the middle
seat: the spec's scan should select seat 3, the next seat after the
current one. -/
def exC2State : GameState :=
  ⟨⟨true, 1, false, false, some 2, none, none⟩,
   [mkPlayer 1 0 false false, mkPlayer 2 1 true false, mkPlayer 3 2 false false],
   ["9"], [], [], [], 100⟩

/-- Claim C2, counterexample. With players 1, 2, 3 in seat order, player 2
current and stayed, the first eligible player strictly after the current
one in seat order is player 3 — but `advanceTurn` restarts from the first
candidate in seat order and selects player 1. -/
theorem c2_advance_turn_counterexample :
    specNextEligible exC2State.players 2 = some 3 ∧
    (advanceTurn exC2State false).room.currentPlayerId = some 1 ∧
    (advanceTurn exC2State false).room.roundOver = false := by
  decide

/-- Claim C2, amended. With a non-null pointer: if no candidate (active,
not stayed, not busted) exists, `advanceTurn` sets round-over and clears
the pointer, as the claim states. If the current player is itself still a
candidate, the pointer moves to the first eligible player strictly after it
in seat order, wrapping — again as the claim states. But if the current
player is no longer eligible (the usual case right after staying or
busting), the pointer is reset to the FIRST candidate in fixed seat order,
not to the first candidate after the current seat. -/
theorem c2_advance_turn_amended (s : GameState) (cur : Nat)
    (hnodup : (s.players.map (fun p => p.pid)).Nodup)
    (hcur : s.room.currentPlayerId = some cur) :
    (candidates s = [] →
        (advanceTurn s false).room.roundOver = true ∧
        (advanceTurn s false).room.currentPlayerId = none) ∧
    (∀ c ∈ s.players, c.pid = cur → eligible c = true →
        (advanceTurn s false).room.currentPlayerId
          = specNextEligible s.players cur) ∧
    (candidates s ≠ [] →
        (∀ c ∈ s.players, c.pid = cur → eligible c = false) →
        (advanceTurn s false).room.currentPlayerId
          = ((candidates s).head?).map (fun p => p.pid)) := by
  refine ⟨?_, ?_, ?_⟩
  · intro hempty
    unfold advanceTurn
    rw [hcur]
    simp only [Bool.false_and, Bool.false_eq_true, if_false, hempty,
      List.map_nil, List.isEmpty_nil, if_true]
    exact ⟨trivial, trivial⟩
  · intro c hcmem hcpid helig
    have hact : c.active = true ∧ (!c.stayed && !c.roundBust) = true := by
      have h := helig
      unfold eligible at h
      simp only [Bool.and_eq_true] at h
      exact ⟨h.1.1, by simp [h.1.2, h.2]⟩
    have hcA : c ∈ s.players.filter (fun p => p.active) :=
      List.mem_filter.mpr ⟨hcmem, hact.1⟩
    have hAnodup : ((s.players.filter (fun p => p.active)).map
        (fun p => p.pid)).Nodup :=
      List.Nodup.sublist (List.Sublist.map _ (List.filter_sublist _)) hnodup
    obtain ⟨i, hfindA⟩ : ∃ i, (s.players.filter (fun p => p.active)).findIdx?
        (fun p => p.pid == cur) = some i := by
      cases hfa : (s.players.filter (fun p => p.active)).findIdx?
          (fun p => p.pid == cur) with
      | some i => exact ⟨i, rfl⟩
      | none =>
          rw [List.findIdx?_eq_none_iff] at hfa
          have := hfa c hcA
          simp [hcpid] at this
    obtain ⟨hi, hAi, hmin⟩ := List.findIdx?_eq_some_iff_getElem.mp hfindA
    have hAic : (s.players.filter (fun p => p.active))[i] = c := by
      apply List.inj_on_of_nodup_map hAnodup (List.getElem_mem hi) hcA
      rw [hcpid]
      exact eq_of_beq hAi
    have hTD : s.players.filter (fun p => p.active)
        = (s.players.filter (fun p => p.active)).take i
          ++ c :: (s.players.filter (fun p => p.active)).drop (i + 1) := by
      conv_lhs => rw [← List.take_append_drop i (s.players.filter (fun p => p.active))]
      rw [List.drop_eq_getElem_cons hi, hAic]
    have hTlen : ((s.players.filter (fun p => p.active)).take i).length = i := by
      rw [List.length_take]
      omega
    have hT : ∀ x ∈ (s.players.filter (fun p => p.active)).take i,
        (x.pid == cur) = false := by
      intro x hx
      obtain ⟨j, hjl, hji, hjx⟩ := mem_take_getElem _ i x hx
      have := hmin j hji
      rw [hjx] at this
      simpa using this
    have hqc : (fun p => !p.stayed && !p.roundBust) c = true := hact.2
    have hcands : candidates s
        = ((s.players.filter (fun p => p.active)).take i).filter
            (fun p => !p.stayed && !p.roundBust)
          ++ c :: ((s.players.filter (fun p => p.active)).drop (i + 1)).filter
            (fun p => !p.stayed && !p.roundBust) := by
      unfold candidates
      conv_lhs => rw [hTD]
      rw [List.filter_append]
      simp only [List.filter_cons, hact.2, if_true]
    have hfindIds : ((candidates s).map (fun p => p.pid)).findIdx?
        (fun x => x == cur)
        = some ((((s.players.filter (fun p => p.active)).take i).filter
            (fun p => !p.stayed && !p.roundBust)).length) := by
      rw [hcands, List.map_append, List.map_cons, hcpid, List.findIdx?_append]
      have hTq : (((((s.players.filter (fun p => p.active)).take i).filter
          (fun p => !p.stayed && !p.roundBust)).map (fun p => p.pid)).findIdx?
            (fun x => x == cur)) = none := by
        rw [List.findIdx?_eq_none_iff]
        intro y hy
        obtain ⟨x, hxmem, rfl⟩ := List.mem_map.mp hy
        exact (by simpa using hT x (List.mem_filter.mp hxmem).1)
      rw [hTq]
      simp [List.findIdx?_cons]
    have hrun : (advanceTurn s false).room.currentPlayerId
        = ((candidates s).map (fun p => p.pid)).get?
            (((((s.players.filter (fun p => p.active)).take i).filter
              (fun p => !p.stayed && !p.roundBust)).length + 1)
              % ((candidates s).map (fun p => p.pid)).length) := by
      unfold advanceTurn
      rw [hcur]
      have hne : ((candidates s).map (fun p => p.pid)).isEmpty = false := by
        rw [hcands]
        simp
      simp only [Bool.false_and, Bool.false_eq_true, if_false, hne, hfindIds]
    have hspec2 : specNextEligible s.players cur
        = (((((s.players.filter (fun p => p.active)).drop (i + 1)).filter
              (fun p => !p.stayed && !p.roundBust)).head?).or
            (((((s.players.filter (fun p => p.active)).take i).filter
              (fun p => !p.stayed && !p.roundBust)).head?).or (some c))).map
          (fun p => p.pid) := by
      unfold specNextEligible
      simp only [hfindA]
      have htake : (s.players.filter (fun p => p.active)).take (i + 1)
          = (s.players.filter (fun p => p.active)).take i ++ [c] := by
        conv_lhs => rw [hTD]
        rw [List.take_append_eq_append_take,
          List.take_of_length_le (by rw [hTlen]; omega), hTlen]
        have h1 : i + 1 - i = 1 := by omega
        rw [h1]
        simp
      rw [htake, List.find?_append, List.find?_append, find?_eq_head_filter,
        find?_eq_head_filter]
      have hfc : List.find? (fun p => !p.stayed && !p.roundBust) [c] = some c := by
        simp [List.find?_cons, hact.2]
      rw [hfc]
    rw [hrun, hspec2]
    cases hDq : ((s.players.filter (fun p => p.active)).drop (i + 1)).filter
        (fun p => !p.stayed && !p.roundBust) with
    | cons d Dq' =>
        have hlen : (((s.players.filter (fun p => p.active)).take i).filter
            (fun p => !p.stayed && !p.roundBust)).length + 1
            < ((candidates s).map (fun p => p.pid)).length := by
          rw [hcands, hDq]
          simp only [List.map_append, List.map_cons, List.length_append,
            List.length_map, List.length_cons]
          omega
        rw [Nat.mod_eq_of_lt hlen, List.get?_eq_getElem?, hcands, hDq,
          List.map_append,
          List.getElem?_append_right (by simp only [List.length_map]; omega)]
        simp
    | nil =>
        have hn : ((candidates s).map (fun p => p.pid)).length
            = (((s.players.filter (fun p => p.active)).take i).filter
                (fun p => !p.stayed && !p.roundBust)).length + 1 := by
          rw [hcands, hDq]
          simp only [List.map_append, List.map_cons, List.map_nil,
            List.length_append, List.length_map, List.length_cons,
            List.length_nil]
        rw [hn, Nat.mod_self, List.get?_eq_getElem?, hcands, hDq]
        cases hTq : ((s.players.filter (fun p => p.active)).take i).filter
            (fun p => !p.stayed && !p.roundBust) with
        | nil => simp [hTq]
        | cons t ts => simp [hTq]

  · intro hne hnone
    have hfind : ((candidates s).map (fun p => p.pid)).findIdx?
        (fun x => x == cur) = none := by
      rw [List.findIdx?_eq_none_iff]
      intro x hx
      obtain ⟨p, hp, rfl⟩ := List.mem_map.mp hx
      have hp2 : p ∈ s.players ∧ eligible p = true := by
        unfold candidates at hp
        have h1 := List.mem_filter.mp hp
        have h2 := List.mem_filter.mp h1.1
        have hq := h1.2
        simp only [Bool.and_eq_true] at hq
        refine ⟨h2.1, ?_⟩
        unfold eligible
        simp [h2.2, hq.1, hq.2]
      by_cases hpc : p.pid = cur
      · have := hnone p hp2.1 hpc
        rw [this] at hp2
        simp at hp2
      · simpa using hpc
    unfold advanceTurn
    rw [hcur]
    have hnemp : ((candidates s).map (fun p => p.pid)).isEmpty = false := by
      cases hc : candidates s
      · exact absurd hc hne
      · simp [hc]
    simp only [Bool.false_and, Bool.false_eq_true, if_false, hnemp, hfind]
    simp [List.head?_map]

/-- Witness for `c2_advance_turn_amended` at a concrete session. -/
theorem c2_advance_turn_amended_witness :
    (advanceTurn exC2State false).room.currentPlayerId
      = ((candidates exC2State).head?).map (fun p => p.pid) :=
  (c2_advance_turn_amended exC2State 2 (by decide) rfl).2.2 (by decide) (by decide)

/-! ### Claim C3: bust determinism -/

theorem bustPlayer_flags (s : GameState) (a : Nat) :
    ∀ q ∈ (bustPlayer s a).players, q.pid = a →
      q.stayed = true ∧ q.roundBust = true := by
  intro q hq hqa
  simp only [bustPlayer, List.mem_map] at hq
  obtain ⟨x, _, hx⟩ := hq
  by_cases hxa : x.pid == a
  · rw [if_pos hxa] at hx
    rw [← hx]
    exact ⟨rfl, rfl⟩
  · rw [if_neg hxa] at hx
    subst hx
    exact absurd (by simpa using hqa) (by simpa using hxa)

theorem discardLoop_roundScores (vals : List String) :
    ∀ x : GameState,
      (vals.foldl (fun acc v => addToDiscard acc v) x).roundScores
        = x.roundScores := by
  induction vals with
  | nil => intro x; rfl
  | cons v vals ih => intro x; exact ih (addToDiscard x v)

theorem endRoundStep_roundScores (round : Nat) (st : GameState) (q : Player) :
    (endRoundStep round st q).roundScores
      = st.roundScores ++ [⟨q.pid, round, roundScoreFor st q⟩] := by
  unfold endRoundStep
  rw [discardLoop_roundScores]
  rfl

theorem foldl_endRoundStep_mono (round : Nat) :
    ∀ (l : List Player) (st : GameState) (r : ScoreRow), r ∈ st.roundScores →
      r ∈ (l.foldl (endRoundStep round) st).roundScores := by
  intro l
  induction l with
  | nil => intro st r hr; exact hr
  | cons a l ih =>
      intro st r hr
      apply ih
      rw [endRoundStep_roundScores]
      exact List.mem_append_left _ hr

theorem foldl_endRoundStep_bust (round : Nat) (q : Player)
    (hbust : q.roundBust = true) :
    ∀ (l : List Player) (st : GameState), q ∈ l →
      (⟨q.pid, round, 0⟩ : ScoreRow)
        ∈ (l.foldl (endRoundStep round) st).roundScores := by
  intro l
  induction l with
  | nil => intro st hq; simp at hq
  | cons a l ih =>
      intro st hq
      rcases List.mem_cons.mp hq with rfl | hq
      · have base : (⟨q.pid, round, 0⟩ : ScoreRow)
            ∈ (endRoundStep round st q).roundScores := by
          rw [endRoundStep_roundScores]
          have h0 : roundScoreFor st q = 0 := by
            unfold roundScoreFor
            simp [hbust]
          rw [h0]
          exact List.mem_append_right _ (by simp)
        exact foldl_endRoundStep_mono round l (endRoundStep round st q) _ base
      · exact ih (endRoundStep round st a) hq

theorem advanceTurn_roundScores (s : GameState) (b : Bool) :
    (advanceTurn s b).roundScores = s.roundScores := by
  simp only [advanceTurn]
  split
  · rfl
  · split
    · rfl
    · split
      · rfl
      · split
        · rfl
        · rfl

theorem ensureDeck_roundScores (template : List (String × Nat)) (s : GameState)
    (rs : List Nat) : (ensureDeck template s rs).1.roundScores = s.roundScores := by
  unfold ensureDeck
  split
  · rfl
  · rfl

theorem endRound_records_bust (template : List (String × Nat)) (t : GameState)
    (rs' : List Nat) (q : Player) (hq : q ∈ t.players) (hact : q.active = true)
    (hbust : q.roundBust = true) :
    (⟨q.pid, t.room.roundNumber, 0⟩ : ScoreRow)
      ∈ (endRound template t rs').1.roundScores := by
  unfold endRound
  rw [advanceTurn_roundScores]
  have hqa : q ∈ t.players.filter (fun p => p.active) :=
    List.mem_filter.mpr ⟨hq, hact⟩
  have hmem := foldl_endRoundStep_bust t.room.roundNumber q hbust
    (t.players.filter (fun p => p.active)) t hqa
  have hkeep : ∀ x : GameState,
      (ensureDeck template x rs').1.roundScores = x.roundScores :=
    fun x => ensureDeck_roundScores template x rs'
  simpa [hkeep] using hmem

/-- A numeral 0-12 is never the "Second Chance" value. -/
theorem isNumberStr_ne_secondChance (v : String) (hnum : isNumberStr v = true) :
    v ≠ "Second Chance" := by
  intro hv
  rw [hv] at hnum
  exact absurd hnum (by decide)

/-- Claim C3. A player who draws a numeric card whose value they already
hold, while holding no Second Chance card, is immediately marked stayed and
busted (the duplicate stays in the hand, the pile shrinks by the drawn
card, no pending action is installed), and `endRound` later records a
round score of 0 for every active busted player, regardless of the contents
of their hand. -/
theorem c3_bust_determinism (template : List (String × Nat)) (s : GameState)
    (p : Nat) (v : String) (rest : List String) (rs : List Nat)
    (hpend : s.room.pending = none)
    (hpile : s.drawPile = v :: rest)
    (hnum : isNumberStr v = true)
    (hdup : 0 < countInHand s p v)
    (hnosc : countInHand s p "Second Chance" = 0) :
    ∃ s', drawCardForPlayer template s p rs = Except.ok (s', rs) ∧
      (∀ q ∈ s'.players, q.pid = p → q.stayed = true ∧ q.roundBust = true) ∧
      countInHand s' p v = countInHand s p v + 1 ∧
      s'.drawPile = rest ∧
      s'.room.pending = none ∧
      (∀ (t : GameState) (rs' : List Nat) (q : Player), q ∈ t.players →
          q.pid = p → q.active = true → q.roundBust = true →
          (⟨p, t.room.roundNumber, 0⟩ : ScoreRow)
            ∈ (endRound template t rs').1.roundScores) := by
  have hens : ensureDeck template s rs = (s, rs) := by
    unfold ensureDeck
    rw [hpile]
    simp
  have hpop : popTopCard { s with room := { s.room with locked := true } } rs
      = (.card v,
         { s with room := { s.room with locked := true }, drawPile := rest }, rs) := by
    unfold popTopCard
    simp only [hpile]
  have hcount4 : countInHand (addToHand
      { s with room := { s.room with locked := true }, drawPile := rest } p v) p v
      = countInHand s p v + 1 := by
    unfold countInHand addToHand
    simp [List.countP_append, rowMatches]
  have hvSC : v ≠ "Second Chance" := isNumberStr_ne_secondChance v hnum
  have hsc4 : playerHasSecondChance (addToHand
      { s with room := { s.room with locked := true }, drawPile := rest } p v) p
      = false := by
    unfold playerHasSecondChance addToHand
    simp only [List.any_append]
    have h1 : s.hands.any (rowMatches p "Second Chance") = false := by
      rw [List.any_eq_false]
      intro x hx
      have := (List.countP_eq_zero).mp (by simpa [countInHand] using hnosc) x hx
      simpa using this
    have h2 : ([⟨p, s.nextPos, v⟩] : List HandRow).any
        (rowMatches p "Second Chance") = false := by
      simp [rowMatches, hvSC]
    rw [h1, h2]
    rfl
  have hdraw : drawCardForPlayer template s p rs
      = Except.ok (bustPlayer (addToHand
          { s with room := { s.room with locked := true }, drawPile := rest } p v)
          p, rs) := by
    unfold drawCardForPlayer
    rw [hpend]
    simp only [Option.isSome_none, Bool.false_eq_true, if_false, hens, hpop,
      hnum, if_true]
    rw [if_pos (by rw [hcount4]; omega)]
    rw [hsc4]
    simp
  refine ⟨_, hdraw, bustPlayer_flags _ p, ?_, rfl, ?_, ?_⟩
  · exact hcount4
  · exact hpend
  · intro t rs' q hq hqp hact hbust
    have := endRound_records_bust template t rs' q hq hact hbust
    rwa [hqp] at this

/-- A session where player 1 already holds a "5", has no Second Chance
card, and the next draw is the second "5". -/
def exC3State : GameState :=
  ⟨⟨true, 1, false, false, some 1, none, none⟩,
   [mkPlayer 1 0 false false, mkPlayer 2 1 false false],
   ["5", "9"], [], [⟨1, 1, "5"⟩], [], 100⟩

/-- Witness for `c3_bust_determinism` at a concrete session. -/
theorem c3_bust_determinism_witness :
    ∃ s', drawCardForPlayer defaultCardTypes exC3State 1 [] = Except.ok (s', []) ∧
      (∀ q ∈ s'.players, q.pid = 1 → q.stayed = true ∧ q.roundBust = true) ∧
      countInHand s' 1 "5" = countInHand exC3State 1 "5" + 1 ∧
      s'.drawPile = ["9"] ∧
      s'.room.pending = none ∧
      (∀ (t : GameState) (rs' : List Nat) (q : Player), q ∈ t.players →
          q.pid = 1 → q.active = true → q.roundBust = true →
          (⟨1, t.room.roundNumber, 0⟩ : ScoreRow)
            ∈ (endRound defaultCardTypes t rs').1.roundScores) :=
  c3_bust_determinism defaultCardTypes exC3State 1 "5" ["9"] [] rfl rfl
    (by decide) (by decide) (by decide)

/-! ### Counting cards through the hybrid shuffle -/

theorem count_set (l : List String) (n : Nat) (a v : String) (hn : n < l.length) :
    (l.set n a).count v + (if l[n] == v then 1 else 0)
      = l.count v + (if a == v then 1 else 0) := by
  have hdecomp : l.count v
      = (l.take n).count v + (l[n] :: l.drop (n + 1)).count v := by
    conv_lhs => rw [← List.take_append_drop n l, List.drop_eq_getElem_cons hn]
    rw [List.count_append]
  rw [List.set_eq_take_cons_drop a hn, List.count_append, hdecomp,
    List.count_cons, List.count_cons]
  by_cases h1 : a == v <;> by_cases h2 : l[n] == v <;> simp [h1, h2] <;> omega

theorem swapIdx_length (l : List String) (i j : Nat) :
    (swapIdx l i j).length = l.length := by
  unfold swapIdx
  simp

theorem swapIdx_count (l : List String) (i j : Nat) (hi : i < l.length)
    (hj : j < l.length) (v : String) : (swapIdx l i j).count v = l.count v := by
  unfold swapIdx
  rw [List.getD_eq_getElem l "" hj, List.getD_eq_getElem l "" hi]
  have h1 := count_set l i (l[j]) v hi
  have hlen : (l.set i l[j]).length = l.length := by simp
  have h2 := count_set (l.set i l[j]) j (l[i]) v (by rw [hlen]; exact hj)
  by_cases hij : i = j
  · subst hij
    have he : (l.set i l[i])[i] = l[i] := by
      rw [List.getElem_set_self]
    rw [he] at h2
    by_cases hb : (l[i] == v) <;> simp only [hb, if_true, if_false] at h1 h2 <;>
      omega
  · have he : (l.set i l[j])[j] = l[j] := by
      rw [List.getElem_set_ne (fun hh => hij hh)]
    rw [he] at h2
    by_cases hb1 : (l[i] == v) <;> by_cases hb2 : (l[j] == v) <;>
      simp only [hb1, hb2, if_true, if_false] at h1 h2 <;> omega

theorem fisherYatesAux_length : ∀ (i : Nat) (deck : List String) (rs : List Nat),
    (fisherYatesAux deck i rs).1.length = deck.length := by
  intro i
  induction i with
  | zero => intro deck rs; rfl
  | succ n ih =>
      intro deck rs
      simp only [fisherYatesAux]
      rw [ih, swapIdx_length]

theorem fisherYatesAux_count : ∀ (i : Nat) (deck : List String) (rs : List Nat)
    (v : String), i < deck.length →
    (fisherYatesAux deck i rs).1.count v = deck.count v := by
  intro i
  induction i with
  | zero => intro deck rs v _; rfl
  | succ n ih =>
      intro deck rs v hi
      simp only [fisherYatesAux]
      have hswlen : (swapIdx deck (n + 1) (rs.headD 0 % (n + 2))).length
          = deck.length := swapIdx_length deck _ _
      rw [ih _ _ v (by rw [hswlen]; omega)]
      exact swapIdx_count deck (n + 1) (rs.headD 0 % (n + 2)) hi
        (by have := Nat.mod_lt (rs.headD 0) (show 0 < n + 2 by omega); omega) v

theorem fisherYates_length (deck : List String) (rs : List Nat) :
    (fisherYates deck rs).1.length = deck.length := by
  unfold fisherYates
  exact fisherYatesAux_length _ deck rs

theorem fisherYates_count (deck : List String) (rs : List Nat) (v : String) :
    (fisherYates deck rs).1.count v = deck.count v := by
  unfold fisherYates
  cases hd : deck with
  | nil => subst hd; rfl
  | cons a t =>
      subst hd
      exact fisherYatesAux_count _ _ rs v (by simp)

theorem findIdxFrom_lt (deck : List String) (f : Nat) (t : String) (k : Nat)
    (h : findIdxFrom deck f t = some k) : k < deck.length := by
  unfold findIdxFrom at h
  have hmem := List.mem_of_find?_eq_some h
  simpa using hmem

theorem forceStreakGo_length : ∀ (fuel offset : Nat) (deck : List String)
    (len start bound : Nat),
    (forceStreakGo deck len start bound offset fuel).length = deck.length := by
  intro fuel
  induction fuel with
  | zero => intro offset deck len start bound; rfl
  | succ n ih =>
      intro offset deck len start bound
      simp only [forceStreakGo]
      by_cases hb : bound ≤ offset
      · simp [hb]
      · simp only [hb, if_false]
        by_cases hrun : isRunAt deck ((start + offset) % bound) len
        · simp only [hrun, if_true]
          exact ih (offset + 1) deck len start bound
        · simp only [hrun, Bool.false_eq_true, if_false]
          cases hf : findIdxFrom deck ((start + offset) % bound + len)
              (deck.getD ((start + offset) % bound) "") with
          | some idx => exact swapIdx_length deck _ idx
          | none => exact ih (offset + 1) deck len start bound

theorem forceStreakGo_count : ∀ (fuel offset : Nat) (deck : List String)
    (len start bound : Nat) (v : String),
    bound + len ≤ deck.length + 1 → 1 ≤ len → 0 < bound →
    (forceStreakGo deck len start bound offset fuel).count v = deck.count v := by
  intro fuel
  induction fuel with
  | zero => intro offset deck len start bound v _ _ _; rfl
  | succ n ih =>
      intro offset deck len start bound v hbl hl hb0
      simp only [forceStreakGo]
      by_cases hb : bound ≤ offset
      · simp [hb]
      · simp only [hb, if_false]
        by_cases hrun : isRunAt deck ((start + offset) % bound) len
        · simp only [hrun, if_true]
          exact ih (offset + 1) deck len start bound v hbl hl hb0
        · simp only [hrun, Bool.false_eq_true, if_false]
          cases hf : findIdxFrom deck ((start + offset) % bound + len)
              (deck.getD ((start + offset) % bound) "") with
          | some idx =>
              have hiB : (start + offset) % bound < bound := Nat.mod_lt _ hb0
              have hidx := findIdxFrom_lt deck _ _ idx hf
              exact swapIdx_count deck _ idx (by omega) hidx v
          | none => exact ih (offset + 1) deck len start bound v hbl hl hb0

theorem forceStreak_length (deck : List String) (len : Nat) (rs : List Nat) :
    (forceStreak deck len rs).1.length = deck.length := by
  unfold forceStreak
  split
  · rfl
  · exact forceStreakGo_length _ _ deck len _ _

theorem forceStreak_count (deck : List String) (len : Nat) (rs : List Nat)
    (v : String) (hl : 1 ≤ len) :
    (forceStreak deck len rs).1.count v = deck.count v := by
  unfold forceStreak
  split
  · rfl
  · rename_i hge
    apply forceStreakGo_count
    · omega
    · exact hl
    · omega

theorem count_insertIdx (l : List String) (pos : Nat) (c v : String) :
    (l.insertIdx pos c).count v
      = if pos ≤ l.length then l.count v + (if c == v then 1 else 0)
        else l.count v := by
  by_cases h : pos ≤ l.length
  · rw [if_pos h]
    have hperm := List.perm_insertIdx c l h
    rw [hperm.count_eq, List.count_cons]
  · rw [if_neg h, List.insertIdx_of_length_lt l c pos (Nat.not_le.mp h)]

theorem insertCards_count_le (v : String) :
    ∀ (cards l : List String) (pos : Nat),
      (insertCards l pos cards).count v ≤ l.count v + cards.count v := by
  intro cards
  induction cards with
  | nil => intro l pos; simp [insertCards]
  | cons c cards ih =>
      intro l pos
      unfold insertCards at ih ⊢
      simp only [List.foldl_cons]
      calc (cards.foldl (fun acc x => acc.insertIdx pos x) (l.insertIdx pos c)).count v
          ≤ (l.insertIdx pos c).count v + cards.count v := ih _ pos
        _ ≤ l.count v + (if c == v then 1 else 0) + cards.count v := by
            rw [count_insertIdx]
            split
            · omega
            · omega
        _ = l.count v + (c :: cards).count v := by
            rw [List.count_cons]
            omega

theorem insertCards_count_eq_of_zero (v : String) :
    ∀ (cards l : List String) (pos : Nat), cards.count v = 0 →
      (insertCards l pos cards).count v = l.count v := by
  intro cards
  induction cards with
  | nil => intro l pos _; rfl
  | cons c cards ih =>
      intro l pos hz
      rw [List.count_cons] at hz
      have hc : (c == v) = false := by
        cases hcv : c == v
        · rfl
        · rw [hcv] at hz; simp at hz
      have hz' : cards.count v = 0 := by
        rw [hc] at hz; omega
      unfold insertCards at ih ⊢
      simp only [List.foldl_cons]
      rw [ih _ pos hz', count_insertIdx]
      split
      · rw [hc]
        simp
      · rfl

theorem insertCards_length_le :
    ∀ (cards l : List String) (pos : Nat),
      (insertCards l pos cards).length ≤ l.length + cards.length := by
  intro cards
  induction cards with
  | nil => intro l pos; simp [insertCards]
  | cons c cards ih =>
      intro l pos
      unfold insertCards at ih ⊢
      simp only [List.foldl_cons]
      calc (cards.foldl (fun acc x => acc.insertIdx pos x) (l.insertIdx pos c)).length
          ≤ (l.insertIdx pos c).length + cards.length := ih _ pos
        _ ≤ (l.length + 1) + cards.length := by
            have := List.length_insertIdx_le_succ l c pos
            omega
        _ = l.length + (c :: cards).length := by
            simp only [List.length_cons]
            omega

theorem distGo_insert_step_length (actions result : List String)
    (pos ai : Nat) (cards : List String) (rest : List (Nat × Nat))
    (rs : List Nat)
    (ih : ∀ (result : List String) (ai : Nat) (rs : List Nat),
        (distGo actions result ai rest rs).1.length
          ≤ result.length + 3 * rest.length)
    (hcards : cards.length ≤ 3) :
    (distGo actions (insertCards result pos cards) ai rest rs).1.length
      ≤ result.length + 3 * (rest.length + 1) := by
  refine le_trans (ih _ _ _) ?_
  have := insertCards_length_le cards result pos
  omega

theorem distGo_length_le (actions : List String) :
    ∀ (zones : List (Nat × Nat)) (result : List String) (ai : Nat) (rs : List Nat),
      (distGo actions result ai zones rs).1.length
        ≤ result.length + 3 * zones.length := by
  intro zones
  induction zones with
  | nil => intro result ai rs; simp [distGo]
  | cons z rest ih =>
      intro result ai rs
      obtain ⟨minPos, maxPos⟩ := z
      simp only [distGo, randBelow]
      split
      · simp
      · split
        · calc (distGo actions result ai rest rs).1.length
              ≤ result.length + 3 * rest.length := ih result ai rs
            _ ≤ result.length + 3 * (rest.length + 1) := by omega
        · apply distGo_insert_step_length
          · exact ih
          · rw [List.length_take]
            have h3 : rs.headD 0 % 3 < 3 := Nat.mod_lt _ (by omega)
            have := min_le_left ((rs.headD 0 % 3 + 1) ⊓ (actions.length - ai))
              (actions.drop ai).length
            have := min_le_left (rs.headD 0 % 3 + 1) (actions.length - ai)
            omega

theorem drop_count_split (actions : List String) (ai cnt : Nat) (v : String) :
    ((actions.drop ai).take cnt).count v + (actions.drop (ai + cnt)).count v
      = (actions.drop ai).count v := by
  conv_rhs => rw [← List.take_append_drop cnt (actions.drop ai)]
  rw [List.count_append, List.drop_drop]

theorem distGo_count_step_le (actions result : List String) (pos ai cnt : Nat)
    (rest : List (Nat × Nat)) (rs : List Nat) (v : String)
    (ih : ∀ (result : List String) (ai : Nat) (rs : List Nat),
        (distGo actions result ai rest rs).1.count v
          ≤ result.count v + (actions.drop ai).count v) :
    (distGo actions (insertCards result pos ((actions.drop ai).take cnt))
        (ai + cnt) rest rs).1.count v
      ≤ result.count v + (actions.drop ai).count v := by
  refine le_trans (ih _ _ _) ?_
  have h1 := insertCards_count_le v ((actions.drop ai).take cnt) result pos
  have h2 := drop_count_split actions ai cnt v
  omega

theorem distGo_count_le (actions : List String) (v : String) :
    ∀ (zones : List (Nat × Nat)) (result : List String) (ai : Nat) (rs : List Nat),
      (distGo actions result ai zones rs).1.count v
        ≤ result.count v + (actions.drop ai).count v := by
  intro zones
  induction zones with
  | nil => intro result ai rs; simp [distGo]
  | cons z rest ih =>
      intro result ai rs
      obtain ⟨minPos, maxPos⟩ := z
      simp only [distGo, randBelow]
      split
      · simp
      · split
        · exact le_trans (ih result ai rs) (by omega)
        · apply distGo_count_step_le
          exact ih

theorem distGo_count_step_zero (actions result : List String) (pos ai cnt : Nat)
    (rest : List (Nat × Nat)) (rs : List Nat) (v : String)
    (ih : ∀ (result : List String) (ai : Nat) (rs : List Nat),
        (actions.drop ai).count v = 0 →
        (distGo actions result ai rest rs).1.count v = result.count v)
    (hz : (actions.drop ai).count v = 0) :
    (distGo actions (insertCards result pos ((actions.drop ai).take cnt))
        (ai + cnt) rest rs).1.count v = result.count v := by
  have hseg : ((actions.drop ai).take cnt).count v = 0 := by
    have hsub := (List.take_sublist cnt (actions.drop ai)).count_le v
    omega
  have hz2 : (actions.drop (ai + cnt)).count v = 0 := by
    have := drop_count_split actions ai cnt v
    omega
  rw [ih _ _ _ hz2, insertCards_count_eq_of_zero v _ _ _ hseg]

theorem distGo_count_eq_of_zero (actions : List String) (v : String) :
    ∀ (zones : List (Nat × Nat)) (result : List String) (ai : Nat) (rs : List Nat),
      (actions.drop ai).count v = 0 →
      (distGo actions result ai zones rs).1.count v = result.count v := by
  intro zones
  induction zones with
  | nil => intro result ai rs _; simp [distGo]
  | cons z rest ih =>
      intro result ai rs hz
      obtain ⟨minPos, maxPos⟩ := z
      simp only [distGo, randBelow]
      split
      · simp
      · split
        · exact ih result ai rs hz
        · apply distGo_count_step_zero
          · exact ih
          · exact hz

/-! ### Counting through the hybrid shuffle -/

theorem count_filter_pos (l : List String) (p : String → Bool) (v : String)
    (hv : p v = true) : (l.filter p).count v = l.count v := by
  induction l with
  | nil => rfl
  | cons a t ih =>
      rw [List.filter_cons]
      by_cases ha : p a = true
      · rw [if_pos ha, List.count_cons, List.count_cons, ih]
      · have ha' : p a = false := by
          cases hpa : p a
          · rfl
          · exact absurd hpa ha
        rw [if_neg ha, List.count_cons, ih]
        have hav : (a == v) = false := by
          cases hbe : a == v
          · rfl
          · rw [eq_of_beq hbe, hv] at ha'
            simp at ha'
        rw [hav]
        simp

theorem count_filter_neg (l : List String) (p : String → Bool) (v : String)
    (hv : p v = false) : (l.filter p).count v = 0 := by
  rw [List.count_eq_zero]
  intro hm
  rw [List.mem_filter] at hm
  rw [hm.2] at hv
  simp at hv

theorem hybridShuffle_count_numeric (deck : List String) (rs : List Nat)
    (v : String) (hv : isAction v = false) :
    (hybridShuffle deck rs).1.count v = deck.count v := by
  unfold hybridShuffle distributeActionsAdaptive
  rcases h1 : fisherYates (deck.filter (fun c => !(isAction c))) rs with ⟨n1, rs1⟩
  rcases h2 : forceStreak n1 2 rs1 with ⟨n2, rs2⟩
  rcases h3 : forceStreak n2 3 rs2 with ⟨n3, rs3⟩
  rcases h4 : fisherYates (deck.filter (fun c => isAction c)) rs3 with ⟨a1, rs4⟩
  simp only [h1, h2, h3, h4]
  have e1 : n1.count v = (deck.filter (fun c => !(isAction c))).count v := by
    have h := fisherYates_count (deck.filter (fun c => !(isAction c))) rs v
    rw [h1] at h
    exact h
  have e2 : n2.count v = n1.count v := by
    have h := forceStreak_count n1 2 rs1 v (by omega)
    rw [h2] at h
    exact h
  have e3 : n3.count v = n2.count v := by
    have h := forceStreak_count n2 3 rs2 v (by omega)
    rw [h3] at h
    exact h
  have ea : a1.count v = 0 := by
    have h : a1.count v = (deck.filter (fun c => isAction c)).count v := by
      have h := fisherYates_count (deck.filter (fun c => isAction c)) rs3 v
      rw [h4] at h
      exact h
    rw [h]
    exact count_filter_neg deck (fun c => isAction c) v hv
  have hz : ((a1.take 14).drop 0).count v = 0 := by
    rw [List.drop_zero]
    have hsub := (List.take_sublist 14 a1).count_le v
    omega
  rw [distGo_count_eq_of_zero (a1.take 14) v (makeZones n3.length) n3 0 rs4 hz]
  rw [e3, e2, e1]
  exact count_filter_pos deck (fun c => !(isAction c)) v (by simp [hv])

theorem hybridShuffle_count_le (deck : List String) (rs : List Nat)
    (v : String) :
    (hybridShuffle deck rs).1.count v ≤ deck.count v := by
  by_cases hv : isAction v = false
  · rw [hybridShuffle_count_numeric deck rs v hv]
  · have hva : isAction v = true := by
      cases h : isAction v
      · exact absurd h hv
      · rfl
    unfold hybridShuffle distributeActionsAdaptive
    rcases h1 : fisherYates (deck.filter (fun c => !(isAction c))) rs with ⟨n1, rs1⟩
    rcases h2 : forceStreak n1 2 rs1 with ⟨n2, rs2⟩
    rcases h3 : forceStreak n2 3 rs2 with ⟨n3, rs3⟩
    rcases h4 : fisherYates (deck.filter (fun c => isAction c)) rs3 with ⟨a1, rs4⟩
    simp only [h1, h2, h3, h4]
    have e1 : n1.count v = 0 := by
      have h : n1.count v = (deck.filter (fun c => !(isAction c))).count v := by
        have h := fisherYates_count (deck.filter (fun c => !(isAction c))) rs v
        rw [h1] at h
        exact h
      rw [h]
      exact count_filter_neg deck (fun c => !(isAction c)) v (by simp [hva])
    have e2 : n2.count v = n1.count v := by
      have h := forceStreak_count n1 2 rs1 v (by omega)
      rw [h2] at h
      exact h
    have e3 : n3.count v = n2.count v := by
      have h := forceStreak_count n2 3 rs2 v (by omega)
      rw [h3] at h
      exact h
    have ea : a1.count v = (deck.filter (fun c => isAction c)).count v := by
      have h := fisherYates_count (deck.filter (fun c => isAction c)) rs3 v
      rw [h4] at h
      exact h
    have hfc : (deck.filter (fun c => isAction c)).count v ≤ deck.count v :=
      (List.filter_sublist deck).count_le v
    have htk : (a1.take 14).count v ≤ a1.count v :=
      (List.take_sublist 14 a1).count_le v
    have hd := distGo_count_le (a1.take 14) v (makeZones n3.length) n3 0 rs4
    rw [List.drop_zero] at hd
    omega

theorem hybridShuffle_length_le (deck : List String) (rs : List Nat) :
    (hybridShuffle deck rs).1.length
      ≤ (deck.filter (fun c => !(isAction c))).length + 12 := by
  unfold hybridShuffle distributeActionsAdaptive
  rcases h1 : fisherYates (deck.filter (fun c => !(isAction c))) rs with ⟨n1, rs1⟩
  rcases h2 : forceStreak n1 2 rs1 with ⟨n2, rs2⟩
  rcases h3 : forceStreak n2 3 rs2 with ⟨n3, rs3⟩
  rcases h4 : fisherYates (deck.filter (fun c => isAction c)) rs3 with ⟨a1, rs4⟩
  simp only [h1, h2, h3, h4]
  have e1 : n1.length = (deck.filter (fun c => !(isAction c))).length := by
    have h := fisherYates_length (deck.filter (fun c => !(isAction c))) rs
    rw [h1] at h
    exact h
  have e2 : n2.length = n1.length := by
    have h := forceStreak_length n1 2 rs1
    rw [h2] at h
    exact h
  have e3 : n3.length = n2.length := by
    have h := forceStreak_length n2 3 rs2
    rw [h3] at h
    exact h
  have hd := distGo_length_le (a1.take 14) (makeZones n3.length) n3 0 rs4
  have hz : (makeZones n3.length).length = 4 := rfl
  omega

theorem ensureDeck_empty_eq (template : List (String × Nat)) (s : GameState)
    (rs : List Nat) (hempty : s.drawPile = []) :
    (ensureDeck template s rs).1
      = { s with drawPile := (hybridShuffle (expandTemplate template) rs).1,
                 discardPile := [], hands := [] } := by
  unfold ensureDeck
  rw [hempty, if_neg (by simp)]

/-! ### Claim C5: shuffle fidelity -/

/-- A two-card template: one numeric "5" and one "Freeze" action card. -/
def exC5Template : List (String × Nat) := [("5", 1), ("Freeze", 1)]

/-- A minimal session whose draw pile is empty, forcing `ensureDeck` to
rebuild the deck from the template. -/
def exC5State : GameState :=
  ⟨⟨true, 1, false, false, some 1, none, none⟩,
   [mkPlayer 1 0 false false],
   [], [], [], [], 100⟩

/-- Claim C5, counterexample. The template expands to ["5", "Freeze"], but
the deck `ensureDeck` installs is just ["5"]: `hybridShuffle` computes the
insertion zones of a 1-card numeric backbone, every zone is degenerate
(`minPos >= maxPos`), and the "Freeze" card is silently dropped, so the
multiset of draw-pile values does not equal the expanded template
multiset. -/
theorem c5_shuffle_fidelity_counterexample :
    (expandTemplate exC5Template).count "Freeze" = 1 ∧
    (ensureDeck exC5Template exC5State (List.replicate 8 0)).1.drawPile
      = ["5"] ∧
    ((ensureDeck exC5Template exC5State (List.replicate 8 0)).1.drawPile).count
      "Freeze" = 0 := by
  decide

/-- Claim C5, amended. After `ensureDeck` rebuilds an empty draw pile the
discard pile and all hands are cleared and the new draw pile is the
`hybridShuffle` of the expanded template, which preserves the multiset of
NUMERIC card values exactly, never increases any value's count, and has
length at most the number of numeric template cards plus 12 — action cards
beyond what the zone insertion places (at most 12, not the documented cap
of 14) are dropped, so the full multiset equality of the claim fails in
general. -/
theorem c5_shuffle_fidelity_amended (template : List (String × Nat))
    (s : GameState) (rs : List Nat) (hempty : s.drawPile = []) :
    (ensureDeck template s rs).1.discardPile = [] ∧
    (ensureDeck template s rs).1.hands = [] ∧
    (∀ v, isAction v = false →
        (ensureDeck template s rs).1.drawPile.count v
          = (expandTemplate template).count v) ∧
    (∀ v, (ensureDeck template s rs).1.drawPile.count v
          ≤ (expandTemplate template).count v) ∧
    (ensureDeck template s rs).1.drawPile.length
      ≤ ((expandTemplate template).filter (fun c => !(isAction c))).length
          + 12 := by
  rw [ensureDeck_empty_eq template s rs hempty]
  refine ⟨rfl, rfl, ?_, ?_, ?_⟩
  · intro v hv
    exact hybridShuffle_count_numeric (expandTemplate template) rs v hv
  · intro v
    exact hybridShuffle_count_le (expandTemplate template) rs v
  · exact hybridShuffle_length_le (expandTemplate template) rs

/-- Witness for `c5_shuffle_fidelity_amended` at a concrete session. -/
theorem c5_shuffle_fidelity_amended_witness :
    exC5State.drawPile = [] ∧
    (ensureDeck exC5Template exC5State (List.replicate 8 0)).1.drawPile.count
        "5" = (expandTemplate exC5Template).count "5" :=
  ⟨rfl,
   (c5_shuffle_fidelity_amended exC5Template exC5State
      (List.replicate 8 0) rfl).2.2.1 "5" (by decide)⟩

/-! ### Claim C1: card conservation -/

/-- A minimal session with all piles and hands empty, about to have its
deck built for the first time. -/
def exC1State : GameState :=
  ⟨⟨true, 1, false, false, some 1, none, none⟩,
   [mkPlayer 1 0 false false],
   [], [], [], [], 100⟩

/-- Claim C1, counterexample. The default template expands to 93 cards,
but immediately after `ensureDeck` first builds the deck the conserved
total `|draw| + |discard| + Σ|hand|` is at most 91: `hybridShuffle` keeps
the 79 numeric cards and inserts at most 3 action cards into each of 4
zones, so at least 2 of the 14 action cards are destroyed before any game
operation runs, and the conservation invariant fails at the very first
instant it is supposed to hold. -/
theorem c1_conservation_counterexample :
    (expandTemplate defaultCardTypes).length = 93 ∧
    conservedTotal
        (ensureDeck defaultCardTypes exC1State (List.replicate 200 0)).1
      ≠ 93 := by
  refine ⟨rfl, ?_⟩
  rw [ensureDeck_empty_eq defaultCardTypes exC1State (List.replicate 200 0) rfl]
  have hlen := hybridShuffle_length_le (expandTemplate defaultCardTypes)
    (List.replicate 200 0)
  have hfilt : ((expandTemplate defaultCardTypes).filter
      (fun c => !(isAction c))).length = 79 := by decide
  simp only [conservedTotal, List.length_nil]
  omega

/-- Claim C1, amended. The conserved total is respected by the turn and
stay updates and by a draw that pops a non-empty draw pile into a hand,
but NOT by deck construction: after `ensureDeck` rebuilds an empty draw
pile the total equals the length of the `hybridShuffle` output, which is
at most the template's numeric-card count plus 12 — strictly less than
the expanded template's total whenever the template holds more than 12
action cards (93 vs at most 91 for the default template). -/
theorem c1_conservation_amended (template : List (String × Nat))
    (s : GameState) (rs : List Nat) (hempty : s.drawPile = []) :
    conservedTotal (ensureDeck template s rs).1
      = (hybridShuffle (expandTemplate template) rs).1.length ∧
    conservedTotal (ensureDeck template s rs).1
      ≤ ((expandTemplate template).filter (fun c => !(isAction c))).length
          + 12 ∧
    (∀ (t : GameState) (b : Bool),
        conservedTotal (advanceTurn t b) = conservedTotal t) ∧
    (∀ (t : GameState) (pid : Nat),
        conservedTotal (setStayed t pid) = conservedTotal t) ∧
    (∀ (t : GameState) (v : String) (rest : List String) (pid : Nat)
        (rs2 : List Nat), t.drawPile = v :: rest →
        conservedTotal (addToHand (popTopCard t rs2).2.1 pid v)
          = conservedTotal t) := by
  have hkey := ensureDeck_empty_eq template s rs hempty
  refine ⟨?_, ?_, ?_, ?_, ?_⟩
  · rw [hkey]
    simp only [conservedTotal, List.length_nil]
    omega
  · rw [hkey]
    have hlen := hybridShuffle_length_le (expandTemplate template) rs
    simp only [conservedTotal, List.length_nil]
    omega
  · intro t b
    simp only [advanceTurn]
    repeat first
      | rfl
      | split
  · intro t pid
    rfl
  · intro t v rest pid rs2 h
    simp only [popTopCard, h, addToHand, conservedTotal,
      List.length_append, List.length_cons, List.length_nil]
    omega

/-- Witness for `c1_conservation_amended` at a concrete session. -/
theorem c1_conservation_amended_witness :
    conservedTotal
        (ensureDeck defaultCardTypes exC1State (List.replicate 200 0)).1
      ≤ ((expandTemplate defaultCardTypes).filter
          (fun c => !(isAction c))).length + 12 :=
  (c1_conservation_amended defaultCardTypes exC1State
    (List.replicate 200 0) rfl).2.1

/-! ### Claim C9: draw with recycling -/

/-- A session with an empty draw pile and a discard pile holding a numeric
"1" and a "Freeze" action card. -/
def exC9State : GameState :=
  ⟨⟨true, 1, false, false, some 1, none, none⟩,
   [mkPlayer 1 0 false false],
   [], ["1", "Freeze"], [], [], 100⟩

/-- A session with an empty draw pile whose discard pile holds only a
"Freeze" action card. -/
def exC9CrashState : GameState :=
  ⟨⟨true, 1, false, false, some 1, none, none⟩,
   [mkPlayer 1 0 false false],
   [], ["Freeze"], [], [], 100⟩

/-- A session with a non-empty draw pile. -/
def exC9DrawState : GameState :=
  ⟨⟨true, 1, false, false, some 1, none, none⟩,
   [mkPlayer 1 0 false false],
   ["7", "8"], [], [], [], 100⟩

/-- Claim C9, counterexample. Recycling does not install the entire
discard pile: with discard ["1", "Freeze"], `popTopCard` reshuffles
through `hybridShuffle`, which drops the "Freeze" card (a 1-card numeric
backbone has only degenerate insertion zones), so the pop returns "1" and
leaves BOTH piles empty — one card has been destroyed. With discard
["Freeze"] alone the reshuffle output is empty, and after the discard
rows are already deleted the read of the new top row throws
(`res.rows[0].id` on zero rows) instead of reporting "no card
available". -/
theorem c9_draw_recycling_counterexample :
    exC9State.discardPile.count "Freeze" = 1 ∧
    (popTopCard exC9State (List.replicate 8 0)).1 = PopResult.card "1" ∧
    (popTopCard exC9State (List.replicate 8 0)).2.1.drawPile = [] ∧
    (popTopCard exC9State (List.replicate 8 0)).2.1.discardPile = [] ∧
    (popTopCard exC9CrashState (List.replicate 8 0)).1 = PopResult.crash := by
  decide

/-- Claim C9, amended. Popping a non-empty draw pile removes and returns
the lowest-position entry and is otherwise a no-op; with both piles empty
the pop reports no card and changes nothing, as claimed. But when only the
draw pile is empty the discard pile is recycled through `hybridShuffle`,
which preserves only the NUMERIC multiset of the discard pile: action
cards can be destroyed, and if the shuffle output is empty (an all-action
discard pile) the function crashes with the discard pile already deleted
and no new draw pile installed. -/
theorem c9_draw_recycling_amended (s : GameState) (rs : List Nat) :
    (∀ v rest, s.drawPile = v :: rest →
        popTopCard s rs = (.card v, { s with drawPile := rest }, rs)) ∧
    (s.drawPile = [] → s.discardPile = [] →
        popTopCard s rs = (.noCard, s, rs)) ∧
    (s.drawPile = [] →
      (∀ w ws, (hybridShuffle s.discardPile rs).1 = w :: ws →
        s.discardPile ≠ [] →
          (popTopCard s rs).1 = .card w ∧
          (popTopCard s rs).2.1.drawPile = ws ∧
          (popTopCard s rs).2.1.discardPile = [] ∧
          (∀ v, isAction v = false →
              ((popTopCard s rs).1 = .card v ∨ v ∈ ws →
                (w :: ws).count v = s.discardPile.count v))) ∧
      ((hybridShuffle s.discardPile rs).1 = [] → s.discardPile ≠ [] →
          (popTopCard s rs).1 = .crash ∧
          (popTopCard s rs).2.1.drawPile = [] ∧
          (popTopCard s rs).2.1.discardPile = [])) := by
  refine ⟨?_, ?_, ?_⟩
  · intro v rest h
    unfold popTopCard
    rw [h]
  · intro h1 h2
    unfold popTopCard
    rw [h1, h2]
    rfl
  · intro h1
    have hcount := fun v => hybridShuffle_count_numeric s.discardPile rs v
    constructor
    · intro w ws hw h2
      have hne : s.discardPile.isEmpty = false := by
        cases hd : s.discardPile
        · exact absurd hd h2
        · rfl
      unfold popTopCard
      rw [h1, hne]
      simp only [Bool.false_eq_true, if_false]
      rcases hh : hybridShuffle s.discardPile rs with ⟨deck, rs1⟩
      have hdeck : deck = w :: ws := by
        rw [hh] at hw
        exact hw
      subst hdeck
      refine ⟨rfl, rfl, rfl, ?_⟩
      intro v hv _
      have h := hcount v hv
      rw [hh] at h
      exact h
    · intro hw h2
      have hne : s.discardPile.isEmpty = false := by
        cases hd : s.discardPile
        · exact absurd hd h2
        · rfl
      unfold popTopCard
      rw [h1, hne]
      simp only [Bool.false_eq_true, if_false]
      rcases hh : hybridShuffle s.discardPile rs with ⟨deck, rs1⟩
      have hdeck : deck = [] := by
        rw [hh] at hw
        exact hw
      subst hdeck
      exact ⟨rfl, rfl, rfl⟩

/-- Witness for `c9_draw_recycling_amended` at a concrete session. -/
theorem c9_draw_recycling_amended_witness :
    popTopCard exC9DrawState []
      = (.card "7", { exC9DrawState with drawPile := ["8"] }, []) :=
  (c9_draw_recycling_amended exC9DrawState []).1 "7" ["8"] rfl

end Flip6
